import Mathlib

/-!
Verification of the Family Debts Board ledger (`debitiapp.py`).

The file shallowly embeds the ledger-store layer (a Google-Sheets worksheet
modelled as a list of rows of string cells, row 1 being the header), the
due-soon Telegram notifier `run_due_soon_notifications`, and the UI-side
mutations (`sidebar_add_form` creation, the settle and delete buttons of
`page_lavagna`).  Network calls of `send_telegram_message` are modelled by a
success oracle together with an effect log; everything else is translated
directly from the Python source.
-/

namespace Debiti

/-! ### Calendar dates (Python `datetime.date`)

`datetime.strptime(s, "%Y-%m-%d").date()` and `(due - today).days` are the
only date operations the app uses.  Dates are modelled by year/month/day with
Python's proleptic-Gregorian `toordinal`, so that the difference of ordinals
is exactly `(due - today).days`.
-/

structure PyDate where
  year : Nat
  month : Nat
  day : Nat
deriving DecidableEq, Repr

def isLeap (y : Nat) : Bool :=
  y % 4 == 0 && (y % 100 != 0 || y % 400 == 0)

def daysInMonth (y m : Nat) : Nat :=
  if m = 2 then (if isLeap y then 29 else 28)
  else if m = 4 ∨ m = 6 ∨ m = 9 ∨ m = 11 then 30
  else 31

def daysBeforeMonth (y m : Nat) : Nat :=
  (List.range (m - 1)).foldl (fun acc k => acc + daysInMonth y (k + 1)) 0

/-- Python `date.toordinal`: day 1 is 0001-01-01 of the proleptic Gregorian
calendar. -/
def toOrdinal (d : PyDate) : Int :=
  365 * ((d.year : Int) - 1)
    + ((d.year - 1) / 4 : Nat) - ((d.year - 1) / 100 : Nat) + ((d.year - 1) / 400 : Nat)
    + (daysBeforeMonth d.year d.month : Int) + (d.day : Int)

/-- Split a character list at every dash, Python `s.split("-")` style. -/
def splitDash : List Char → List (List Char)
  | [] => [[]]
  | c :: cs =>
    if c = '-' then [] :: splitDash cs
    else
      match splitDash cs with
      | [] => [[c]]
      | p :: ps => (c :: p) :: ps

def allDigits (cs : List Char) : Bool :=
  decide (cs ≠ []) && cs.all Char.isDigit

def digitsToNat (cs : List Char) : Nat :=
  cs.foldl (fun n c => n * 10 + (c.toNat - '0'.toNat)) 0

/-- `datetime.strptime(s, "%Y-%m-%d")`: four year digits, one or two month
digits, one or two day digits, separated by literal dashes, full match, with
the month, day and year ranges validated by the `datetime` constructor. -/
def parseDate (s : String) : Option PyDate :=
  match splitDash s.data with
  | [ys, ms, ds] =>
    if ys.length = 4 ∧ allDigits ys ∧ allDigits ms ∧ ms.length ≤ 2
        ∧ allDigits ds ∧ ds.length ≤ 2 then
      let y := digitsToNat ys
      let m := digitsToNat ms
      let d := digitsToNat ds
      if 1 ≤ y ∧ 1 ≤ m ∧ m ≤ 12 ∧ 1 ≤ d ∧ d ≤ daysInMonth y m then
        some ⟨y, m, d⟩
      else none
    else none
  | _ => none

/-- Python `str.strip()`: leading and trailing whitespace removed.  (Python
also strips some rarer Unicode whitespace; the records of this ledger only
ever carry the ASCII kinds.) -/
def isWsChar (c : Char) : Bool :=
  c == ' ' || c == '\t' || c == '\n' || c == '\r' || c == '\x0b' || c == '\x0c'

def pyStrip (s : String) : String :=
  ⟨((s.data.dropWhile isWsChar).reverse.dropWhile isWsChar).reverse⟩

/-! ### The worksheet

A worksheet is a list of rows of string cells; row 1 (index 0) is the header.
Cell coordinates are 1-based, as in gspread.  `update_cell` pads the grid as
needed, like the remote service does.
-/

/-- One worksheet: `rows` with 1-based indexing, row 1 is the header. -/
abbrev Table := List (List String)

def padRow (n : Nat) (r : List String) : List String :=
  r ++ List.replicate (n - r.length) ""

def padTable (n : Nat) (t : Table) : Table :=
  t ++ List.replicate (n - t.length) []

/-- Row `j` (1-based) of the table; missing rows read as empty. -/
def getRow (t : Table) (j : Nat) : List String :=
  t.getD (j - 1) []

/-- `sheet_header(ws) = ws.row_values(1)`. -/
def sheet_header (t : Table) : List String :=
  getRow t 1

/-- First (0-based) position of `k` in `l`: Python's `l.index(k)` paired with
the `k in l` test, as an option. -/
def idxOf? (l : List String) (k : String) : Option Nat :=
  match l with
  | [] => none
  | a :: as => if a = k then some 0 else (idxOf? as k).map (· + 1)

/-- `ws.update_cell(j, c, v)` (1-based row and column). -/
def update_cell (t : Table) (j c : Nat) (v : String) : Table :=
  let t' := padTable j t
  t'.set (j - 1) ((padRow c (t'.getD (j - 1) [])).set (c - 1) v)

/-- `ws.delete_rows(j)` (1-based). -/
def delete_row_at (t : Table) (j : Nat) : Table :=
  t.eraseIdx (j - 1)

/-! ### Records (`ws.get_all_records()`)

gspread turns each data row into a dict keyed by the header names, padding
short rows with empty strings.  A record is modelled as the association list
`header.zip paddedRow`; `recGet` is `str(row.get(key, "")).strip()` minus the
strip, which call sites apply themselves, exactly as the Python does.
Duplicate header names are rejected by gspread before any record is built, so
first-occurrence lookup coincides with dict construction on every accepted
sheet.
-/

abbrev Rec := List (String × String)

def mkRec (header row : List String) : Rec :=
  header.zip (padRow header.length row)

def recGet (r : Rec) (key : String) : String :=
  (r.lookup key).getD ""

/-- `ws.get_all_records()`: every data row as a header-keyed record. -/
def get_all_records (t : Table) : List Rec :=
  (t.drop 1).map (mkRec (sheet_header t))

/-- The record of (1-based) sheet row `j`, as `get_all_records` rebuilds it. -/
def recGetAt (t : Table) (j : Nat) (key : String) : String :=
  recGet (mkRec (sheet_header t) (getRow t j)) key

/-! ### Ledger-store helpers from `debitiapp.py` -/

/-- `ensure_column_exists(col_name)`: append the column to the header when it
is absent (`ws.update_cell(1, len(header) + 1, col_name)`). -/
def ensure_column_exists (t : Table) (col_name : String) : Table :=
  let header := sheet_header t
  if col_name ∈ header then t
  else update_cell t 1 (header.length + 1) col_name

/-- `append_row_to_sheet(row)`: values positioned by the current header. -/
def append_row_to_sheet (t : Table) (row : Rec) : Table :=
  let header := sheet_header t
  let values := header.map (fun h => (row.lookup h).getD "")
  t ++ [values]

/-- `find_row_index_by_id(txn_id)`: linear scan of the `id` column (which
includes the header cell), first match, 1-based.  (`ws.col_values` drops
trailing empty cells; that changes nothing for the non-empty UUIDs searched
here, so the column is modelled untrimmed.) -/
def find_row_index_by_id (t : Table) (txn_id : String) : Option Nat :=
  match idxOf? (sheet_header t) "id" with
  | none => none
  | some i =>
    match idxOf? (t.map (fun row => row.getD i "")) txn_id with
    | some k => some (k + 1)
    | none => none

/-- `update_cells_in_row(row_index, updates)`: one batched write of the named
cells, columns resolved against the header read once; names absent from the
header are silently skipped. -/
def ucrAux (header : List String) (row_index : Nat) (updates : Rec) (t : Table) : Table :=
  updates.foldl (fun acc kv =>
    match idxOf? header kv.1 with
    | some i => update_cell acc row_index (i + 1) kv.2
    | none => acc) t

def update_cells_in_row (t : Table) (row_index : Nat) (updates : Rec) : Table :=
  ucrAux (sheet_header t) row_index updates t

/-! ### `sheet_to_df()`

The pandas frame is modelled as the list of its rows, each row an association
list whose keys are exactly the `expected` columns, in order: `pd.DataFrame`
of the records followed by `df[c] = ""` for each missing expected column and
the projection `df[expected]`.
-/

def expectedCols : List String :=
  ["id", "debtor", "creditor", "amount_cents", "description", "category",
   "due_date", "status", "created_at", "paid_at", "notified_7d_at"]

def sheet_to_df (t : Table) : List Rec :=
  (get_all_records t).map (fun r => expectedCols.map (fun c => (c, recGet r c)))

/-! ### The due-soon notifier -/

/-- Static inputs of one `run_due_soon_notifications` call: the Telegram
secrets, the threshold, `date.today()`, the `datetime.now().isoformat()`
timestamp written into `notified_7d_at`, and a success oracle for
`send_telegram_message` (indexed by the number of messages already sent;
`False` models `raise_for_status` raising). -/
structure NotifierConfig where
  token : String
  chat_ids : List (String × Int)
  days_threshold : Int
  today : PyDate
  nowIso : String
  sendOk : Nat → Bool

/-- How the per-row `continue` chain of `run_due_soon_notifications` classifies
one record, in the source's exact order: status, empty due date, existing
marker, unparsable due date, window, chat id. -/
inductive Outcome where
  | notOpen
  | noDue
  | already
  | unparsable
  | notDue
  | noChat
  | send
deriving DecidableEq, Repr

def classifyRow (cfg : NotifierConfig) (row : Rec) : Outcome :=
  if pyStrip (recGet row "status") ≠ "OPEN" then .notOpen
  else if pyStrip (recGet row "due_date") = "" then .noDue
  else if pyStrip (recGet row "notified_7d_at") ≠ "" then .already
  else
    match parseDate (pyStrip (recGet row "due_date")) with
    | none => .unparsable
    | some due =>
      if ¬ (0 ≤ toOrdinal due - toOrdinal cfg.today ∧
            toOrdinal due - toOrdinal cfg.today ≤ cfg.days_threshold) then .notDue
      else
        match cfg.chat_ids.lookup (pyStrip (recGet row "debtor")) with
        | none => .noChat
        | some cid => if cid = 0 then .noChat else .send

/-- Mutable state of one notifier run: the live worksheet being written plus
the four counters and the log of sheet rows whose reminder was sent. -/
structure RunState where
  tbl : Table
  sent : Nat
  skipped_no_chatid : Nat
  skipped_already : Nat
  skipped_not_due : Nat
  sends : List Nat
deriving DecidableEq, Repr

def initState (t : Table) : RunState :=
  ⟨t, 0, 0, 0, 0, []⟩

/-- `enumerate(rows, start)` of Python. -/
def pyEnum (start : Nat) : List α → List (Nat × α)
  | [] => []
  | a :: as => (start, a) :: pyEnum (start + 1) as

/-- The `for sheet_row_index, row in enumerate(rows, start=2)` loop.  A failed
send raises, which aborts the run: modelled by `Except.error` carrying the
state reached and the sheet row whose send failed.  On a confirmed send the
marker cell of that snapshot row is written immediately. -/
def notifyLoop (cfg : NotifierConfig) (col_notified : Nat) :
    List (Nat × Rec) → RunState → Except (RunState × Nat) RunState
  | [], st => .ok st
  | (j, row) :: rest, st =>
    match classifyRow cfg row with
    | .notOpen => notifyLoop cfg col_notified rest st
    | .noDue => notifyLoop cfg col_notified rest st
    | .unparsable => notifyLoop cfg col_notified rest st
    | .already =>
      notifyLoop cfg col_notified rest { st with skipped_already := st.skipped_already + 1 }
    | .notDue =>
      notifyLoop cfg col_notified rest { st with skipped_not_due := st.skipped_not_due + 1 }
    | .noChat =>
      notifyLoop cfg col_notified rest { st with skipped_no_chatid := st.skipped_no_chatid + 1 }
    | .send =>
      if cfg.sendOk st.sent then
        notifyLoop cfg col_notified rest
          { st with
            tbl := update_cell st.tbl j col_notified cfg.nowIso
            sent := st.sent + 1
            sends := st.sends ++ [j] }
      else .error (st, j)

/-- Result of `run_due_soon_notifications`: the `ok: False` dictionaries, a
propagated send exception, or the final `ok: True` counters.  Each constructor
carries the worksheet as left behind. -/
inductive RunResult where
  | err (msg : String) (tbl : Table)
  | aborted (st : RunState) (failedRow : Nat)
  | ok (st : RunState)
deriving DecidableEq, Repr

/-- The loop of `run_due_soon_notifications` after the snapshot read: the rows
come from the one `get_all_records` call, while cell writes go to the live
worksheet `live` (identical to the snapshot source only when nothing else
mutates the sheet mid-run). -/
def run_core (cfg : NotifierConfig) (col_notified : Nat) (rows : List Rec) (live : Table) :
    Except (RunState × Nat) RunState :=
  notifyLoop cfg col_notified (pyEnum 2 rows) (initState live)

def run_due_soon_notifications (cfg : NotifierConfig) (tbl : Table) : RunResult :=
  if cfg.token = "" then .err "Manca TELEGRAM_BOT_TOKEN nei secrets." tbl
  else if cfg.chat_ids = [] then .err "Manca TELEGRAM_CHAT_IDS_JSON nei secrets (o e vuoto)." tbl
  else
    match idxOf? (sheet_header (ensure_column_exists tbl "notified_7d_at")) "notified_7d_at" with
    | none => .err "Non riesco a creare/vedere la colonna notified_7d_at."
        (ensure_column_exists tbl "notified_7d_at")
    | some i =>
      match run_core cfg (i + 1)
          (get_all_records (ensure_column_exists tbl "notified_7d_at"))
          (ensure_column_exists tbl "notified_7d_at") with
      | .ok st => .ok st
      | .error (st, k) => .aborted st k

def RunResult.finalTbl : RunResult → Table
  | .err _ t => t
  | .aborted st _ => st.tbl
  | .ok st => st.tbl

def RunResult.sendsList : RunResult → List Nat
  | .err _ _ => []
  | .aborted st _ => st.sends
  | .ok st => st.sends

def RunResult.skippedAlready : RunResult → Nat
  | .err _ _ => 0
  | .aborted st _ => st.skipped_already
  | .ok st => st.skipped_already

def RunResult.countersSum : RunResult → Nat
  | .err _ _ => 0
  | .aborted st _ => st.sent + st.skipped_no_chatid + st.skipped_already + st.skipped_not_due
  | .ok st => st.sent + st.skipped_no_chatid + st.skipped_already + st.skipped_not_due

/-! ### UI mutations -/

/-- One submission of the sidebar form.  `cents` is the value
`cents_from_euros(amount_eur)` that line 285 computes before the
non-positivity check; the transient float conversion itself is outside the
integer ledger model. -/
structure Submission where
  debtor : String
  creditor : String
  cents : Int
  category : String
  description : String
  due_iso : String

/-- The submit branch of `sidebar_add_form`: the three validation rejections
(each `st.sidebar.error` plus `return`), then `ensure_column_exists`, then the
append.  Returns the worksheet and the error message, if any. -/
def sidebar_add_form (t : Table) (s : Submission) (newId nowIso : String) :
    Table × Option String :=
  if s.debtor = s.creditor then
    (t, some "Debitore e creditore devono essere diversi.")
  else if pyStrip s.description = "" then
    (t, some "Inserisci una descrizione.")
  else if s.cents ≤ 0 then
    (t, some "Importo non valido.")
  else
    let t1 := ensure_column_exists t "notified_7d_at"
    let txn : Rec :=
      [("id", newId), ("debtor", s.debtor), ("creditor", s.creditor),
       ("amount_cents", toString s.cents), ("description", pyStrip s.description),
       ("category", s.category), ("due_date", s.due_iso), ("status", "OPEN"),
       ("created_at", nowIso), ("paid_at", ""), ("notified_7d_at", "")]
    (append_row_to_sheet t1 txn, none)

/-- The `✅ Saldata` button of `page_lavagna`: re-resolve the row by id, then
one batched two-cell update; `Riga non trovata` leaves the sheet untouched. -/
def settleById (t : Table) (txn_id now_iso : String) : Table :=
  match find_row_index_by_id t txn_id with
  | some r => update_cells_in_row t r [("status", "PAID"), ("paid_at", now_iso)]
  | none => t

/-- The delete button of `page_lavagna`. -/
def deleteById (t : Table) (txn_id : String) : Table :=
  match find_row_index_by_id t txn_id with
  | some r => delete_row_at t r
  | none => t

/-- The mutating operations the application can run against the sheet after a
settle: another settle, a delete, a form submission, a notifier run. -/
inductive LedgerOp where
  | settleOp (txn_id now_iso : String)
  | deleteOp (txn_id : String)
  | appendOp (s : Submission) (newId nowIso : String)
  | notifyOp (cfg : NotifierConfig)

def applyOp (t : Table) : LedgerOp → Table
  | .settleOp i n => settleById t i n
  | .deleteOp i => deleteById t i
  | .appendOp s i n => (sidebar_add_form t s i n).1
  | .notifyOp cfg => (run_due_soon_notifications cfg t).finalTbl

def applyOps (t : Table) (ops : List LedgerOp) : Table :=
  ops.foldl applyOp t

/-- Conditions under which an operation concerns a different obligation than
`txn_id` (or none at all): the generated UUIDs never collide with an existing
id and are never the literal header word `id`. -/
def OpOK (txn_id : String) : LedgerOp → Prop
  | .settleOp i _ => i ≠ "id"
  | .deleteOp i => i ≠ "id"
  | .appendOp _ i _ => i ≠ txn_id
  | .notifyOp _ => True

/-- After a settle, every data row holding `txn_id` shows status `PAID`. -/
def PaidInv (txn_id : String) (t : Table) : Prop :=
  ∀ j, recGetAt t j "id" = txn_id → recGetAt t j "status" = "PAID"

/-- A usable obligation identifier: UUIDs are never empty and never collide
with the header word `id`. -/
def GoodId (txn_id : String) : Prop :=
  txn_id ≠ "" ∧ txn_id ≠ "id"

/-! ### Derived descriptions of a notifier run, used to state its lemmas -/

/-- The sequence of `notified_7d_at` cell writes a run performs. -/
def applyMarks (col : Nat) (v : String) (t : Table) (S : List Nat) : Table :=
  S.foldl (fun acc j => update_cell acc j col v) t

/-- Sheet rows of an enumerated snapshot whose record reaches the send step. -/
def sendIdxs (cfg : NotifierConfig) (pairs : List (Nat × Rec)) : List Nat :=
  pairs.filterMap (fun p => if classifyRow cfg p.2 = .send then some p.1 else none)

/-- How many snapshot rows fall in a given branch of the skip chain. -/
def outCount (cfg : NotifierConfig) (o : Outcome) (pairs : List (Nat × Rec)) : Nat :=
  pairs.countP (fun p => classifyRow cfg p.2 == o)

/-- What one run turns a row's classification into for the next run: a sent
row is afterwards marked, every other row is untouched. -/
def reclass : Outcome → Outcome
  | .send => .already
  | o => o

/-! ### Concrete fixtures for witnesses and counterexamples -/

def fullHeader : List String :=
  ["id", "debtor", "creditor", "amount_cents", "description", "category",
   "due_date", "status", "created_at", "paid_at", "notified_7d_at"]

def sampleRow (i debtor due status notif : String) : List String :=
  [i, debtor, "Tommy", "1500", "libri", "Altro", due, status,
   "2026-01-01T00:00:00", "", notif]

def sampleCfg (ok : Nat → Bool) : NotifierConfig :=
  { token := "T", chat_ids := [("Elia", 5), ("Mamma", 7)], days_threshold := 7,
    today := ⟨2026, 10, 12⟩, nowIso := "2026-10-12T10:00:00", sendOk := ok }

/-- One PAID row, one row with no due date, one with an unparsable one: none
of them touches any counter. -/
def tableC10 : Table :=
  [fullHeader, sampleRow "a" "Elia" "2026-10-13" "PAID" "",
   sampleRow "b" "Elia" "" "OPEN" "",
   sampleRow "c" "Elia" "boh" "OPEN" ""]

/-- An open row with an unparsable due date and a marker already set. -/
def tableC9 : Table :=
  [fullHeader, sampleRow "a" "Elia" "notadate" "OPEN" "x"]

/-- A single qualifying open row due tomorrow. -/
def tableC4 : Table :=
  [fullHeader, sampleRow "a" "Elia" "2026-10-13" "OPEN" ""]

/-- The spec's example: due in three days, open, unmarked, threshold seven. -/
def tableC3 : Table :=
  [fullHeader, sampleRow "a" "Elia" "2026-10-15" "OPEN" ""]

def tableC7 : Table :=
  [fullHeader, sampleRow "a" "Elia" "2026-10-15" "OPEN" ""]

def tableC1 : Table :=
  [fullHeader, sampleRow "a" "Elia" "2026-10-15" "OPEN" "",
   sampleRow "b" "Mamma" "2026-10-13" "OPEN" ""]

/-- The state a run on `tableC1` finishes in: both open rows reminded and
marked. -/
def stC1 : RunState :=
  { tbl := [fullHeader, sampleRow "a" "Elia" "2026-10-15" "OPEN" "2026-10-12T10:00:00",
      sampleRow "b" "Mamma" "2026-10-13" "OPEN" "2026-10-12T10:00:00"]
    sent := 2
    skipped_no_chatid := 0
    skipped_already := 0
    skipped_not_due := 0
    sends := [2, 3] }

/-- Snapshot source for the stale-position scenario: row 2 is settled, row 3
qualifies for a reminder. -/
def tableC8 : Table :=
  [fullHeader, sampleRow "a" "Elia" "2026-10-15" "PAID" "",
   sampleRow "b" "Mamma" "2026-10-13" "OPEN" ""]

/-- The live worksheet after an external client deleted row 2 between the
notifier's snapshot read and its marker write: `b` now sits at row 2. -/
def liveC8 : Table := delete_row_at tableC8 2

/-- The state the notifier's loop reaches on the stale-position scenario: it
sent for `b` but wrote the marker at snapshot row 3 of the live sheet,
creating a padded phantom row instead of marking `b`. -/
def stC8 : RunState :=
  { tbl := [fullHeader, sampleRow "b" "Mamma" "2026-10-13" "OPEN" "",
      ["", "", "", "", "", "", "", "", "", "", "2026-10-12T10:00:00"]]
    sent := 1
    skipped_no_chatid := 0
    skipped_already := 0
    skipped_not_due := 0
    sends := [3] }

/-! ## Basic cell and padding lemmas -/

theorem getD_eq_get?_getD {α : Type} (l : List α) (i : Nat) (d : α) :
    l.getD i d = (l.get? i).getD d := by
  simp [List.getD_eq_getElem?_getD]

theorem getD_append_replicate {α : Type} (l : List α) (k i : Nat) (d : α) :
    (l ++ List.replicate k d).getD i d = l.getD i d := by
  rcases Nat.lt_or_ge i l.length with h | h
  · exact List.getD_append _ _ _ _ h
  · rw [List.getD_append_right _ _ _ _ h, List.getD_eq_default _ _ h]
    rcases Nat.lt_or_ge (i - l.length) k with h2 | h2
    · simp [getD_eq_get?_getD, List.getElem?_replicate, h2]
    · exact List.getD_eq_default _ _ (by simpa using h2)

theorem getD_padRow (n : Nat) (r : List String) (i : Nat) :
    (padRow n r).getD i "" = r.getD i "" :=
  getD_append_replicate r _ i ""

theorem getD_padTable (n : Nat) (t : Table) (i : Nat) :
    (padTable n t).getD i [] = t.getD i [] :=
  getD_append_replicate t _ i []

theorem padRow_length (n : Nat) (r : List String) :
    (padRow n r).length = max r.length n := by
  simp [padRow]; omega

theorem padTable_length (n : Nat) (t : Table) :
    (padTable n t).length = max t.length n := by
  simp [padTable]; omega

theorem getD_set_ne {α : Type} (l : List α) (m n : Nat) (a d : α) (h : m ≠ n) :
    (l.set m a).getD n d = l.getD n d := by
  simp only [getD_eq_get?_getD, List.get?_eq_getElem?]
  rw [List.getElem?_set_ne h]

theorem getD_set_self {α : Type} (l : List α) (n : Nat) (a d : α) (h : n < l.length) :
    (l.set n a).getD n d = a := by
  simp [getD_eq_get?_getD, List.getElem?_set, h]

theorem getElem?_padRow (n : Nat) (r : List String) (i : Nat) (h : i < n) :
    (padRow n r)[i]? = some (r.getD i "") := by
  unfold padRow
  rcases Nat.lt_or_ge i r.length with h1 | h1
  · rw [List.getElem?_append_left (by simpa using h1)]
    simp [getD_eq_get?_getD, List.get?_eq_getElem?, List.getElem?_eq_getElem h1]
  · have h2 : i - r.length < n - r.length := by omega
    rw [List.getElem?_append_right h1, List.getElem?_replicate,
      List.getD_eq_default _ _ h1]
    simp [h2]

/-! ## `idxOf?` lemmas -/

theorem idxOf?_eq_none_iff (l : List String) (k : String) :
    idxOf? l k = none ↔ k ∉ l := by
  induction l with
  | nil => simp [idxOf?]
  | cons a as ih =>
    by_cases h : a = k <;> simp [idxOf?, h, ih] <;> tauto

theorem idxOf?_lt_length (l : List String) (k : String) (i : Nat)
    (h : idxOf? l k = some i) : i < l.length := by
  induction l generalizing i with
  | nil => simp [idxOf?] at h
  | cons a as ih =>
    by_cases ha : a = k
    · simp [idxOf?, ha] at h
      simp
      omega
    · simp [idxOf?, ha] at h
      obtain ⟨i', hi', rfl⟩ := h
      have := ih i' hi'
      simp
      omega

theorem idxOf?_get (l : List String) (k : String) (i : Nat)
    (h : idxOf? l k = some i) : l.get? i = some k := by
  induction l generalizing i with
  | nil => simp [idxOf?] at h
  | cons a as ih =>
    by_cases ha : a = k
    · simp [idxOf?, ha] at h; subst h; simp [ha]
    · simp [idxOf?, ha] at h
      obtain ⟨i', hi', rfl⟩ := h
      simpa using ih i' hi'

theorem idxOf?_ne_of_ne (l : List String) (k1 k2 : String) (i1 i2 : Nat)
    (hk : k1 ≠ k2) (h1 : idxOf? l k1 = some i1) (h2 : idxOf? l k2 = some i2) :
    i1 ≠ i2 := by
  intro h
  subst h
  have e1 := idxOf?_get l k1 i1 h1
  have e2 := idxOf?_get l k2 i1 h2
  rw [e1] at e2
  exact hk (Option.some.inj e2)

theorem idxOf?_append (l1 l2 : List String) (k : String) :
    idxOf? (l1 ++ l2) k = match idxOf? l1 k with
      | some i => some i
      | none => (idxOf? l2 k).map (· + l1.length) := by
  induction l1 with
  | nil => simp [idxOf?]
  | cons a as ih =>
    by_cases ha : a = k
    · simp [idxOf?, ha]
    · have e : idxOf? ((a :: as) ++ l2) k = (idxOf? (as ++ l2) k).map (· + 1) := by
        simp [idxOf?, ha]
      rw [e, ih]
      cases h : idxOf? as k with
      | some i => simp [h, idxOf?, ha]
      | none =>
        cases h2 : idxOf? l2 k with
        | none => simp [h, h2, idxOf?, ha]
        | some i =>
          simp [h, h2, idxOf?, ha]
          omega

theorem idxOf?_some_of_mem (l : List String) (k : String) (h : k ∈ l) :
    ∃ i, idxOf? l k = some i := by
  cases hi : idxOf? l k with
  | none => exact absurd ((idxOf?_eq_none_iff l k).mp hi) (by simpa using h)
  | some i => exact ⟨i, rfl⟩

/-! ## Record lookup lemmas -/

theorem lookup_zip (hd : List String) (r : List String) (k : String) :
    (hd.zip r).lookup k = (idxOf? hd k).bind r.get? := by
  induction hd generalizing r with
  | nil => simp [idxOf?]
  | cons h hs ih =>
    cases r with
    | nil => cases hi : idxOf? (h :: hs) k <;> simp
    | cons x rs =>
      simp only [List.zip_cons_cons, List.lookup, idxOf?]
      by_cases hh : h = k
      · subst hh
        simp
      · rw [show (k == h) = false by simp [Ne.symm hh]]
        simp only [hh, if_false]
        rw [show List.zipWith Prod.mk hs rs = hs.zip rs from rfl, ih rs]
        cases hi : idxOf? hs k <;> simp

theorem recGet_mkRec (hd row : List String) (k : String) :
    recGet (mkRec hd row) k = match idxOf? hd k with
      | some i => row.getD i ""
      | none => "" := by
  unfold recGet mkRec
  rw [lookup_zip]
  cases h : idxOf? hd k with
  | none => simp
  | some i =>
    have hi : i < hd.length := idxOf?_lt_length hd k i h
    simp [h, getElem?_padRow hd.length row i hi]

theorem recGetAt_eq (t : Table) (j : Nat) (k : String) :
    recGetAt t j k = match idxOf? (sheet_header t) k with
      | some i => (getRow t j).getD i ""
      | none => "" :=
  recGet_mkRec _ _ _

theorem recGet_eq_empty_of_not_mem (hd row : List String) (k : String)
    (h : k ∉ hd) : recGet (mkRec hd row) k = "" := by
  rw [recGet_mkRec, (idxOf?_eq_none_iff hd k).mpr h]

/-! ## `update_cell` lemmas -/

theorem getRow_update_cell_ne (t : Table) (j c : Nat) (v : String) (k : Nat)
    (h : k - 1 ≠ j - 1) : getRow (update_cell t j c v) k = getRow t k := by
  unfold update_cell getRow
  rw [getD_set_ne _ _ _ _ _ (fun e => h e.symm), getD_padTable]

theorem getRow_update_cell_self (t : Table) (j c : Nat) (v : String) (hj : 1 ≤ j) :
    getRow (update_cell t j c v) j = (padRow c (getRow t j)).set (c - 1) v := by
  unfold update_cell getRow
  rw [getD_set_self, getD_padTable]
  rw [padTable_length]
  omega

theorem update_cell_length (t : Table) (j c : Nat) (v : String) (h : j ≤ t.length) :
    (update_cell t j c v).length = t.length := by
  simp [update_cell, padTable, List.length_set]
  omega

theorem getD_setPad (c : Nat) (r : List String) (v : String) (i : Nat) (hc : 1 ≤ c) :
    ((padRow c r).set (c - 1) v).getD i "" = if i = c - 1 then v else r.getD i "" := by
  by_cases h : i = c - 1
  · subst h
    rw [getD_set_self, if_pos rfl]
    rw [padRow_length]
    omega
  · rw [getD_set_ne _ _ _ _ _ (fun e => h e.symm), getD_padRow, if_neg h]

theorem sheet_header_update_cell (t : Table) (j c : Nat) (v : String) (hj : 2 ≤ j) :
    sheet_header (update_cell t j c v) = sheet_header t :=
  getRow_update_cell_ne t j c v 1 (by omega)

/-- The record of any untouched row is unchanged by a cell write. -/
theorem recGetAt_update_cell_ne (t : Table) (j c : Nat) (v : String) (k : Nat)
    (key : String) (hj : 2 ≤ j) (hk : k ≠ j) :
    recGetAt (update_cell t j c v) k key = recGetAt t k key := by
  rw [recGetAt_eq, recGetAt_eq, sheet_header_update_cell t j c v hj,
    getRow_update_cell_ne t j c v k (by omega)]

/-- Writing column `c` of row `j` sets exactly the field whose first header
occurrence is column `c`. -/
theorem recGetAt_update_cell_self (t : Table) (j c : Nat) (v : String)
    (key : String) (hj : 2 ≤ j) (hc : 1 ≤ c)
    (hkey : idxOf? (sheet_header t) key = some (c - 1)) :
    recGetAt (update_cell t j c v) j key = v := by
  rw [recGetAt_eq, sheet_header_update_cell t j c v hj, hkey,
    getRow_update_cell_self t j c v (by omega)]
  show ((padRow c (getRow t j)).set (c - 1) v).getD (c - 1) "" = v
  rw [getD_setPad c _ v _ hc, if_pos rfl]

/-- Writing column `c` of row `j` leaves every field whose first header
occurrence is a different column unchanged, on row `j` too. -/
theorem recGetAt_update_cell_other (t : Table) (j c : Nat) (v : String)
    (key : String) (hj : 2 ≤ j) (hc : 1 ≤ c)
    (hkey : ∀ i, idxOf? (sheet_header t) key = some i → i ≠ c - 1) :
    recGetAt (update_cell t j c v) j key = recGetAt t j key := by
  rw [recGetAt_eq, recGetAt_eq, sheet_header_update_cell t j c v hj]
  cases h : idxOf? (sheet_header t) key with
  | none => rfl
  | some i =>
    rw [getRow_update_cell_self t j c v (by omega)]
    show ((padRow c (getRow t j)).set (c - 1) v).getD i "" = (getRow t j).getD i ""
    rw [getD_setPad c _ v _ hc, if_neg (hkey i h)]

/-! ## Header-row and phantom-row records -/

theorem recGetAt_one (t : Table) (key : String) :
    recGetAt t 1 key = key ∨ recGetAt t 1 key = "" := by
  rw [recGetAt_eq]
  cases h : idxOf? (sheet_header t) key with
  | none => exact Or.inr rfl
  | some i =>
    left
    have := idxOf?_get _ _ _ h
    show (getRow t 1).getD i "" = key
    rw [getD_eq_get?_getD]
    show ((sheet_header t).get? i).getD "" = key
    rw [this]
    rfl

theorem recGetAt_le_one (t : Table) (j : Nat) (key : String) (h : j ≤ 1) :
    recGetAt t j key = recGetAt t 1 key := by
  interval_cases j <;> rfl

theorem recGetAt_phantom (t : Table) (j : Nat) (key : String)
    (h : t.length ≤ j - 1) : recGetAt t j key = "" := by
  rw [recGetAt_eq]
  cases hi : idxOf? (sheet_header t) key with
  | none => rfl
  | some i =>
    show (getRow t j).getD i "" = ""
    unfold getRow
    rw [List.getD_eq_default _ _ h]
    rfl

/-! ## `ensure_column_exists` lemmas -/

theorem ensure_eq_of_mem (t : Table) (name : String)
    (h : name ∈ sheet_header t) : ensure_column_exists t name = t := by
  simp [ensure_column_exists, h]

theorem set_append_singleton {α : Type} (l : List α) (x y : α) :
    (l ++ [x]).set l.length y = l ++ [y] := by
  induction l with
  | nil => rfl
  | cons a as ih => simp [List.set, ih]

theorem sheet_header_ensure_not_mem (t : Table) (name : String)
    (h : name ∉ sheet_header t) :
    sheet_header (ensure_column_exists t name) = sheet_header t ++ [name] := by
  unfold ensure_column_exists
  rw [if_neg h]
  show getRow (update_cell t 1 ((sheet_header t).length + 1) name) 1 = _
  rw [getRow_update_cell_self t 1 _ name (by omega)]
  have hpad : padRow ((sheet_header t).length + 1) (getRow t 1) =
      sheet_header t ++ [""] := by
    unfold padRow sheet_header
    have e : (getRow t 1).length + 1 - (getRow t 1).length = 1 := by omega
    rw [e]
    rfl
  rw [hpad]
  show (sheet_header t ++ [""]).set ((sheet_header t).length + 1 - 1) name = _
  rw [show (sheet_header t).length + 1 - 1 = (sheet_header t).length by omega,
    set_append_singleton]

theorem mem_sheet_header_ensure (t : Table) (name : String) :
    name ∈ sheet_header (ensure_column_exists t name) := by
  by_cases h : name ∈ sheet_header t
  · rw [ensure_eq_of_mem t name h]; exact h
  · rw [sheet_header_ensure_not_mem t name h]; simp

theorem getRow_ensure (t : Table) (name : String) (j : Nat) (hj : 2 ≤ j) :
    getRow (ensure_column_exists t name) j = getRow t j := by
  unfold ensure_column_exists
  by_cases h : name ∈ sheet_header t
  · rw [if_pos h]
  · rw [if_neg h]
    exact getRow_update_cell_ne t 1 _ name j (by omega)

theorem ensure_length (t : Table) (name : String) (h : 1 ≤ t.length) :
    (ensure_column_exists t name).length = t.length := by
  unfold ensure_column_exists
  by_cases hm : name ∈ sheet_header t
  · rw [if_pos hm]
  · rw [if_neg hm]
    exact update_cell_length t 1 _ name h

/-- Adding a fresh header column does not change any other field of any data
row. -/
theorem recGetAt_ensure (t : Table) (name : String) (j : Nat) (key : String)
    (hj : 2 ≤ j) (hkey : key ≠ name) :
    recGetAt (ensure_column_exists t name) j key = recGetAt t j key := by
  by_cases h : name ∈ sheet_header t
  · rw [ensure_eq_of_mem t name h]
  · rw [recGetAt_eq, recGetAt_eq, sheet_header_ensure_not_mem t name h,
      getRow_ensure t name j hj, idxOf?_append]
    cases h1 : idxOf? (sheet_header t) key with
    | some i => rfl
    | none =>
      have : idxOf? [name] key = none :=
        (idxOf?_eq_none_iff _ _).mpr (by simp [hkey])
      rw [this]
      rfl

/-! ## `applyMarks` lemmas -/

theorem applyMarks_nil (col : Nat) (v : String) (t : Table) :
    applyMarks col v t [] = t := rfl

theorem applyMarks_cons (col : Nat) (v : String) (t : Table) (j : Nat) (S : List Nat) :
    applyMarks col v t (j :: S) = applyMarks col v (update_cell t j col v) S := rfl

theorem sheet_header_applyMarks (col : Nat) (v : String) (t : Table) (S : List Nat)
    (hS : ∀ j ∈ S, 2 ≤ j) :
    sheet_header (applyMarks col v t S) = sheet_header t := by
  induction S generalizing t with
  | nil => rfl
  | cons j S' ih =>
    rw [applyMarks_cons, ih _ (fun a ha => hS a (by simp [ha])),
      sheet_header_update_cell t j col v (hS j (by simp))]

theorem applyMarks_length (col : Nat) (v : String) (t : Table) (S : List Nat)
    (hS : ∀ j ∈ S, j ≤ t.length) :
    (applyMarks col v t S).length = t.length := by
  induction S generalizing t with
  | nil => rfl
  | cons j S' ih =>
    have hlen : (update_cell t j col v).length = t.length :=
      update_cell_length t j col v (hS j (by simp))
    rw [applyMarks_cons, ih _ (fun a ha => by rw [hlen]; exact hS a (by simp [ha])), hlen]

theorem getRow_applyMarks_ne (col : Nat) (v : String) (t : Table) (S : List Nat)
    (k : Nat) (hS : ∀ j ∈ S, 2 ≤ j) (hk : 2 ≤ k) (hnot : k ∉ S) :
    getRow (applyMarks col v t S) k = getRow t k := by
  induction S generalizing t with
  | nil => rfl
  | cons j S' ih =>
    rw [applyMarks_cons, ih _ (fun a ha => hS a (by simp [ha])) (by simp at hnot; tauto),
      getRow_update_cell_ne t j col v k]
    have h2 : 2 ≤ j := hS j (by simp)
    have : k ≠ j := by simp at hnot; tauto
    omega

/-- A notifier run's writes, seen field by field: marked rows get `v` in their
`notified_7d_at` field, everything else is untouched. -/
theorem recGetAt_applyMarks (col : Nat) (v : String) (t : Table) (S : List Nat)
    (hcol : 1 ≤ col) (hS : ∀ j ∈ S, 2 ≤ j)
    (hhd : idxOf? (sheet_header t) "notified_7d_at" = some (col - 1)) :
    ∀ k key, recGetAt (applyMarks col v t S) k key =
      if k ∈ S ∧ key = "notified_7d_at" then v else recGetAt t k key := by
  induction S generalizing t with
  | nil => intro k key; simp [applyMarks_nil]
  | cons j S' ih =>
    intro k key
    have hj2 : 2 ≤ j := hS j (by simp)
    have hhd' : idxOf? (sheet_header (update_cell t j col v)) "notified_7d_at"
        = some (col - 1) := by
      rw [sheet_header_update_cell t j col v hj2]; exact hhd
    rw [applyMarks_cons, ih _ (fun a ha => hS a (by simp [ha])) hhd' k key]
    by_cases hm : k ∈ S' ∧ key = "notified_7d_at"
    · rw [if_pos hm, if_pos ⟨by simp [hm.1], hm.2⟩]
    · rw [if_neg hm]
      by_cases hkj : k = j
      · subst hkj
        by_cases hkey : key = "notified_7d_at"
        · subst hkey
          rw [recGetAt_update_cell_self t k col v _ hj2 hcol hhd,
            if_pos ⟨by simp, rfl⟩]
        · rw [recGetAt_update_cell_other t k col v key hj2 hcol
            (fun i hi => idxOf?_ne_of_ne _ _ _ _ _ hkey hi hhd),
            if_neg (by simp [hkey])]
      · rw [recGetAt_update_cell_ne t j col v k key hj2 hkj]
        have : ¬(k ∈ j :: S' ∧ key = "notified_7d_at") := by
          rintro ⟨hk1, hk2⟩
          simp at hk1
          rcases hk1 with h | h
          · exact hkj h
          · exact hm ⟨h, hk2⟩
        rw [if_neg this]

/-! ## `pyEnum` lemmas -/

theorem pyEnum_get? {α : Type} (s : Nat) (l : List α) (i : Nat) :
    (pyEnum s l).get? i = (l.get? i).map (fun a => (s + i, a)) := by
  induction l generalizing s i with
  | nil => simp [pyEnum]
  | cons a as ih =>
    cases i with
    | zero => simp [pyEnum]
    | succ i =>
      show (pyEnum (s + 1) as).get? i = _
      rw [ih]
      have e : s + 1 + i = s + (i + 1) := by omega
      rw [e]
      rfl

theorem pyEnum_mem {α : Type} (s : Nat) (l : List α) (j : Nat) (a : α) :
    (j, a) ∈ pyEnum s l ↔ s ≤ j ∧ l.get? (j - s) = some a := by
  rw [List.mem_iff_get?]
  constructor
  · rintro ⟨n, hn⟩
    rw [pyEnum_get?] at hn
    cases h : l.get? n with
    | none => rw [h] at hn; simp at hn
    | some b =>
      rw [h] at hn
      simp at hn
      obtain ⟨h1, h2⟩ := hn
      refine ⟨by omega, ?_⟩
      rw [show j - s = n by omega, h, h2]
  · rintro ⟨hs, hget⟩
    refine ⟨j - s, ?_⟩
    rw [pyEnum_get?, hget]
    simp
    omega

theorem pyEnum_fst_pairwise {α : Type} (s : Nat) (l : List α) :
    (pyEnum s l).Pairwise (fun p q => p.1 < q.1) := by
  induction l generalizing s with
  | nil => simp [pyEnum]
  | cons a as ih =>
    rw [pyEnum, List.pairwise_cons]
    refine ⟨?_, ih (s + 1)⟩
    rintro ⟨j, b⟩ hmem
    have := (pyEnum_mem (s + 1) as j b).mp hmem
    simp
    omega

theorem pyEnum_length {α : Type} (s : Nat) (l : List α) :
    (pyEnum s l).length = l.length := by
  induction l generalizing s with
  | nil => rfl
  | cons a as ih => simp [pyEnum, ih]

/-! ## Classification characterizations -/

theorem classify_congr (cfg : NotifierConfig) (r1 r2 : Rec)
    (h : ∀ key, recGet r1 key = recGet r2 key) :
    classifyRow cfg r1 = classifyRow cfg r2 := by
  simp only [classifyRow, h]

/-- The send branch is reached exactly for open, due-dated, unmarked rows in
the window whose debtor has a usable chat id. -/
theorem classify_send_iff (cfg : NotifierConfig) (r : Rec) :
    classifyRow cfg r = .send ↔
      pyStrip (recGet r "status") = "OPEN" ∧
      pyStrip (recGet r "due_date") ≠ "" ∧
      pyStrip (recGet r "notified_7d_at") = "" ∧
      ∃ d, parseDate (pyStrip (recGet r "due_date")) = some d ∧
        0 ≤ toOrdinal d - toOrdinal cfg.today ∧
        toOrdinal d - toOrdinal cfg.today ≤ cfg.days_threshold ∧
        ∃ cid, cfg.chat_ids.lookup (pyStrip (recGet r "debtor")) = some cid ∧ cid ≠ 0 := by
  constructor
  · intro h
    unfold classifyRow at h
    by_cases h1 : pyStrip (recGet r "status") = "OPEN"
    swap
    · rw [if_pos h1] at h; cases h
    rw [if_neg (fun hc => hc h1)] at h
    by_cases h2 : pyStrip (recGet r "due_date") = ""
    · rw [if_pos h2] at h; cases h
    rw [if_neg h2] at h
    by_cases h3 : pyStrip (recGet r "notified_7d_at") = ""
    swap
    · rw [if_pos h3] at h; cases h
    rw [if_neg (fun hc => hc h3)] at h
    cases hp : parseDate (pyStrip (recGet r "due_date")) with
    | none => rw [hp] at h; cases h
    | some d =>
      rw [hp] at h
      replace h : (if ¬ (0 ≤ toOrdinal d - toOrdinal cfg.today ∧
            toOrdinal d - toOrdinal cfg.today ≤ cfg.days_threshold) then Outcome.notDue
          else
            match cfg.chat_ids.lookup (pyStrip (recGet r "debtor")) with
            | none => Outcome.noChat
            | some cid => if cid = 0 then Outcome.noChat else Outcome.send)
          = Outcome.send := h
      by_cases hw : 0 ≤ toOrdinal d - toOrdinal cfg.today ∧
          toOrdinal d - toOrdinal cfg.today ≤ cfg.days_threshold
      swap
      · rw [if_pos hw] at h; cases h
      rw [if_neg (fun hc => hc hw)] at h
      cases hl : List.lookup (pyStrip (recGet r "debtor")) cfg.chat_ids with
      | none => rw [hl] at h; cases h
      | some cid =>
        rw [hl] at h
        replace h : (if cid = 0 then Outcome.noChat else Outcome.send)
            = Outcome.send := h
        by_cases hc0 : cid = 0
        · rw [if_pos hc0] at h; cases h
        exact ⟨h1, h2, h3, d, rfl, hw.1, hw.2, cid, rfl, hc0⟩
  · rintro ⟨h1, h2, h3, d, hp, hw1, hw2, cid, hl, hc0⟩
    unfold classifyRow
    rw [if_neg (fun hc => hc h1), if_neg h2, if_neg (fun hc => hc h3), hp]
    show (if ¬ (0 ≤ toOrdinal d - toOrdinal cfg.today ∧
          toOrdinal d - toOrdinal cfg.today ≤ cfg.days_threshold) then Outcome.notDue
        else
          match cfg.chat_ids.lookup (pyStrip (recGet r "debtor")) with
          | none => Outcome.noChat
          | some cid => if cid = 0 then Outcome.noChat else Outcome.send)
        = Outcome.send
    rw [if_neg (fun hc => hc ⟨hw1, hw2⟩), hl]
    show (if cid = 0 then Outcome.noChat else Outcome.send) = Outcome.send
    rw [if_neg hc0]

/-- The already-notified branch is reached exactly for open, due-dated rows
whose marker is set, whether or not the due date parses. -/
theorem classify_already_iff (cfg : NotifierConfig) (r : Rec) :
    classifyRow cfg r = .already ↔
      pyStrip (recGet r "status") = "OPEN" ∧
      pyStrip (recGet r "due_date") ≠ "" ∧
      pyStrip (recGet r "notified_7d_at") ≠ "" := by
  constructor
  · intro h
    unfold classifyRow at h
    by_cases h1 : pyStrip (recGet r "status") = "OPEN"
    swap
    · rw [if_pos h1] at h; cases h
    rw [if_neg (fun hc => hc h1)] at h
    by_cases h2 : pyStrip (recGet r "due_date") = ""
    · rw [if_pos h2] at h; cases h
    rw [if_neg h2] at h
    by_cases h3 : pyStrip (recGet r "notified_7d_at") = ""
    swap
    · exact ⟨h1, h2, h3⟩
    rw [if_neg (fun hc => hc h3)] at h
    cases hp : parseDate (pyStrip (recGet r "due_date")) with
    | none => rw [hp] at h; cases h
    | some d =>
      rw [hp] at h
      replace h : (if ¬ (0 ≤ toOrdinal d - toOrdinal cfg.today ∧
            toOrdinal d - toOrdinal cfg.today ≤ cfg.days_threshold) then Outcome.notDue
          else
            match cfg.chat_ids.lookup (pyStrip (recGet r "debtor")) with
            | none => Outcome.noChat
            | some cid => if cid = 0 then Outcome.noChat else Outcome.send)
          = Outcome.already := h
      by_cases hw : 0 ≤ toOrdinal d - toOrdinal cfg.today ∧
          toOrdinal d - toOrdinal cfg.today ≤ cfg.days_threshold
      swap
      · rw [if_pos hw] at h; cases h
      rw [if_neg (fun hc => hc hw)] at h
      cases hl : List.lookup (pyStrip (recGet r "debtor")) cfg.chat_ids with
      | none => rw [hl] at h; cases h
      | some cid =>
        rw [hl] at h
        replace h : (if cid = 0 then Outcome.noChat else Outcome.send)
            = Outcome.already := h
        by_cases hc0 : cid = 0
        · rw [if_pos hc0] at h; cases h
        · rw [if_neg hc0] at h; cases h
  · rintro ⟨h1, h2, h3⟩
    unfold classifyRow
    rw [if_neg (fun hc => hc h1), if_neg h2, if_pos h3]

theorem classify_notOpen_of (cfg : NotifierConfig) (r : Rec)
    (h : pyStrip (recGet r "status") ≠ "OPEN") : classifyRow cfg r = .notOpen := by
  simp [classifyRow, h]

theorem classify_noDue_of (cfg : NotifierConfig) (r : Rec)
    (h1 : pyStrip (recGet r "status") = "OPEN") (h2 : pyStrip (recGet r "due_date") = "") :
    classifyRow cfg r = .noDue := by
  simp [classifyRow, h1, h2]

theorem classify_unparsable_of (cfg : NotifierConfig) (r : Rec)
    (h1 : pyStrip (recGet r "status") = "OPEN") (h2 : pyStrip (recGet r "due_date") ≠ "")
    (h3 : pyStrip (recGet r "notified_7d_at") = "")
    (h4 : parseDate (pyStrip (recGet r "due_date")) = none) :
    classifyRow cfg r = .unparsable := by
  simp [classifyRow, h1, h2, h3, h4]

theorem classify_ne_send_of_marker (cfg : NotifierConfig) (r : Rec)
    (h : pyStrip (recGet r "notified_7d_at") ≠ "") : classifyRow cfg r ≠ .send := by
  intro hs
  exact h ((classify_send_iff cfg r).mp hs).2.2.1

theorem reclass_ne_send (o : Outcome) : reclass o ≠ .send := by
  cases o <;> simp [reclass]

/-! ## `sendIdxs` lemmas -/

theorem mem_sendIdxs (cfg : NotifierConfig) (pairs : List (Nat × Rec)) (j : Nat) :
    j ∈ sendIdxs cfg pairs ↔
      ∃ row, (j, row) ∈ pairs ∧ classifyRow cfg row = .send := by
  simp only [sendIdxs, List.mem_filterMap]
  constructor
  · rintro ⟨⟨a, b⟩, hmem, hf⟩
    by_cases hc : classifyRow cfg b = .send
    · rw [if_pos hc] at hf
      cases hf
      exact ⟨b, hmem, hc⟩
    · rw [if_neg hc] at hf
      cases hf
  · rintro ⟨row, hmem, hc⟩
    exact ⟨(j, row), hmem, by rw [if_pos hc]⟩

theorem sendIdxs_length (cfg : NotifierConfig) (pairs : List (Nat × Rec)) :
    (sendIdxs cfg pairs).length = outCount cfg .send pairs := by
  induction pairs with
  | nil => rfl
  | cons p rest ih =>
    by_cases hc : classifyRow cfg p.2 = .send
    · simp [sendIdxs, outCount, List.filterMap_cons, List.countP_cons, hc] at ih ⊢
      omega
    · simp [sendIdxs, outCount, List.filterMap_cons, List.countP_cons, hc] at ih ⊢
      exact ih

theorem sendIdxs_sublist (cfg : NotifierConfig) (pairs : List (Nat × Rec)) :
    (sendIdxs cfg pairs).Sublist (pairs.map Prod.fst) := by
  induction pairs with
  | nil => simp [sendIdxs]
  | cons p rest ih =>
    by_cases hc : classifyRow cfg p.2 = .send
    · simpa [sendIdxs, List.filterMap_cons, hc] using ih.cons₂ p.1
    · simpa [sendIdxs, List.filterMap_cons, hc] using ih.cons p.1

theorem sendIdxs_pairwise (cfg : NotifierConfig) (s : Nat) (l : List Rec) :
    (sendIdxs cfg (pyEnum s l)).Pairwise (· < ·) := by
  have h1 : ((pyEnum s l).map Prod.fst).Pairwise (· < ·) := by
    rw [List.pairwise_map]
    exact pyEnum_fst_pairwise s l
  exact h1.sublist (sendIdxs_sublist cfg (pyEnum s l))

theorem sendIdxs_eq_nil_of_no_send (cfg : NotifierConfig) (pairs : List (Nat × Rec))
    (h : ∀ p ∈ pairs, classifyRow cfg p.2 ≠ .send) : sendIdxs cfg pairs = [] := by
  induction pairs with
  | nil => rfl
  | cons p rest ih =>
    have hp := h p (by simp)
    simp only [sendIdxs, List.filterMap_cons, if_neg hp]
    exact ih (fun q hq => h q (by simp [hq]))

/-! ## `notifyLoop` characterization -/

theorem notifyLoop_cons_eq (cfg : NotifierConfig) (col : Nat) (j : Nat) (row : Rec)
    (rest : List (Nat × Rec)) (st : RunState) :
    notifyLoop cfg col ((j, row) :: rest) st =
      match classifyRow cfg row with
      | .notOpen => notifyLoop cfg col rest st
      | .noDue => notifyLoop cfg col rest st
      | .unparsable => notifyLoop cfg col rest st
      | .already =>
        notifyLoop cfg col rest { st with skipped_already := st.skipped_already + 1 }
      | .notDue =>
        notifyLoop cfg col rest { st with skipped_not_due := st.skipped_not_due + 1 }
      | .noChat =>
        notifyLoop cfg col rest { st with skipped_no_chatid := st.skipped_no_chatid + 1 }
      | .send =>
        if cfg.sendOk st.sent then
          notifyLoop cfg col rest
            { st with
              tbl := update_cell st.tbl j col cfg.nowIso
              sent := st.sent + 1
              sends := st.sends ++ [j] }
        else .error (st, j) := rfl

/-- Full description of a completed loop: the final counters, send log and
worksheet, in terms of the classification of the snapshot rows. -/
theorem notifyLoop_ok_spec (cfg : NotifierConfig) (col : Nat)
    (pairs : List (Nat × Rec)) (st st' : RunState)
    (h : notifyLoop cfg col pairs st = .ok st') :
    st'.tbl = applyMarks col cfg.nowIso st.tbl (sendIdxs cfg pairs) ∧
    st'.sent = st.sent + (sendIdxs cfg pairs).length ∧
    st'.skipped_no_chatid = st.skipped_no_chatid + outCount cfg .noChat pairs ∧
    st'.skipped_already = st.skipped_already + outCount cfg .already pairs ∧
    st'.skipped_not_due = st.skipped_not_due + outCount cfg .notDue pairs ∧
    st'.sends = st.sends ++ sendIdxs cfg pairs := by
  induction pairs generalizing st with
  | nil =>
    replace h : (Except.ok st : Except (RunState × Nat) RunState) = .ok st' := h
    cases h
    simp [sendIdxs, outCount, applyMarks_nil]
  | cons p rest ih =>
    obtain ⟨j, row⟩ := p
    cases hc : classifyRow cfg row
    case notOpen =>
      replace h : notifyLoop cfg col rest st = .ok st' := by
        rw [notifyLoop_cons_eq, hc] at h; exact h
      obtain ⟨e1, e2, e3, e4, e5, e6⟩ := ih _ h
      exact ⟨by rw [e1]; simp [sendIdxs, List.filterMap_cons, hc],
        by rw [e2]; simp [sendIdxs, List.filterMap_cons, hc],
        by rw [e3]; simp [outCount, List.countP_cons, hc],
        by rw [e4]; simp [outCount, List.countP_cons, hc],
        by rw [e5]; simp [outCount, List.countP_cons, hc],
        by rw [e6]; simp [sendIdxs, List.filterMap_cons, hc]⟩
    case noDue =>
      replace h : notifyLoop cfg col rest st = .ok st' := by
        rw [notifyLoop_cons_eq, hc] at h; exact h
      obtain ⟨e1, e2, e3, e4, e5, e6⟩ := ih _ h
      exact ⟨by rw [e1]; simp [sendIdxs, List.filterMap_cons, hc],
        by rw [e2]; simp [sendIdxs, List.filterMap_cons, hc],
        by rw [e3]; simp [outCount, List.countP_cons, hc],
        by rw [e4]; simp [outCount, List.countP_cons, hc],
        by rw [e5]; simp [outCount, List.countP_cons, hc],
        by rw [e6]; simp [sendIdxs, List.filterMap_cons, hc]⟩
    case unparsable =>
      replace h : notifyLoop cfg col rest st = .ok st' := by
        rw [notifyLoop_cons_eq, hc] at h; exact h
      obtain ⟨e1, e2, e3, e4, e5, e6⟩ := ih _ h
      exact ⟨by rw [e1]; simp [sendIdxs, List.filterMap_cons, hc],
        by rw [e2]; simp [sendIdxs, List.filterMap_cons, hc],
        by rw [e3]; simp [outCount, List.countP_cons, hc],
        by rw [e4]; simp [outCount, List.countP_cons, hc],
        by rw [e5]; simp [outCount, List.countP_cons, hc],
        by rw [e6]; simp [sendIdxs, List.filterMap_cons, hc]⟩
    case already =>
      replace h : notifyLoop cfg col rest
          { st with skipped_already := st.skipped_already + 1 } = .ok st' := by
        rw [notifyLoop_cons_eq, hc] at h; exact h
      obtain ⟨e1, e2, e3, e4, e5, e6⟩ := ih _ h
      exact ⟨by rw [e1]; simp [sendIdxs, List.filterMap_cons, hc],
        by rw [e2]; simp [sendIdxs, List.filterMap_cons, hc],
        by rw [e3]; simp [outCount, List.countP_cons, hc],
        by rw [e4]; simp [outCount, List.countP_cons, hc]; omega,
        by rw [e5]; simp [outCount, List.countP_cons, hc],
        by rw [e6]; simp [sendIdxs, List.filterMap_cons, hc]⟩
    case notDue =>
      replace h : notifyLoop cfg col rest
          { st with skipped_not_due := st.skipped_not_due + 1 } = .ok st' := by
        rw [notifyLoop_cons_eq, hc] at h; exact h
      obtain ⟨e1, e2, e3, e4, e5, e6⟩ := ih _ h
      exact ⟨by rw [e1]; simp [sendIdxs, List.filterMap_cons, hc],
        by rw [e2]; simp [sendIdxs, List.filterMap_cons, hc],
        by rw [e3]; simp [outCount, List.countP_cons, hc],
        by rw [e4]; simp [outCount, List.countP_cons, hc],
        by rw [e5]; simp [outCount, List.countP_cons, hc]; omega,
        by rw [e6]; simp [sendIdxs, List.filterMap_cons, hc]⟩
    case noChat =>
      replace h : notifyLoop cfg col rest
          { st with skipped_no_chatid := st.skipped_no_chatid + 1 } = .ok st' := by
        rw [notifyLoop_cons_eq, hc] at h; exact h
      obtain ⟨e1, e2, e3, e4, e5, e6⟩ := ih _ h
      exact ⟨by rw [e1]; simp [sendIdxs, List.filterMap_cons, hc],
        by rw [e2]; simp [sendIdxs, List.filterMap_cons, hc],
        by rw [e3]; simp [outCount, List.countP_cons, hc]; omega,
        by rw [e4]; simp [outCount, List.countP_cons, hc],
        by rw [e5]; simp [outCount, List.countP_cons, hc],
        by rw [e6]; simp [sendIdxs, List.filterMap_cons, hc]⟩
    case send =>
      cases hok : cfg.sendOk st.sent
      case false =>
        replace h : (Except.error (st, j) : Except (RunState × Nat) RunState)
            = .ok st' := by
          rw [notifyLoop_cons_eq, hc, hok] at h
          exact h
        cases h
      case true =>
        replace h : notifyLoop cfg col rest
            { st with
              tbl := update_cell st.tbl j col cfg.nowIso
              sent := st.sent + 1
              sends := st.sends ++ [j] } = .ok st' := by
          rw [notifyLoop_cons_eq, hc, hok] at h
          exact h
        obtain ⟨e1, e2, e3, e4, e5, e6⟩ := ih _ h
        refine ⟨?_, ?_, ?_, ?_, ?_, ?_⟩
        · rw [e1]
          simp [sendIdxs, List.filterMap_cons, hc, applyMarks_cons]
        · rw [e2]
          simp [sendIdxs, List.filterMap_cons, hc]
          omega
        · rw [e3]; simp [outCount, List.countP_cons, hc]
        · rw [e4]; simp [outCount, List.countP_cons, hc]
        · rw [e5]; simp [outCount, List.countP_cons, hc]
        · rw [e6]
          simp [sendIdxs, List.filterMap_cons, hc]

/-- An aborted loop: the raising row is a send-class row whose dispatch the
oracle failed; everything before it behaved as in a completed run, and the
raising row was neither logged as sent nor marked. -/
theorem notifyLoop_err_spec (cfg : NotifierConfig) (col : Nat)
    (pairs : List (Nat × Rec)) (st st' : RunState) (k : Nat)
    (h : notifyLoop cfg col pairs st = .error (st', k)) :
    ∃ pre row post, pairs = pre ++ (k, row) :: post ∧
      classifyRow cfg row = .send ∧
      cfg.sendOk st'.sent = false ∧
      st'.tbl = applyMarks col cfg.nowIso st.tbl (sendIdxs cfg pre) ∧
      st'.sent = st.sent + (sendIdxs cfg pre).length ∧
      st'.sends = st.sends ++ sendIdxs cfg pre := by
  induction pairs generalizing st with
  | nil =>
    replace h : (Except.ok st : Except (RunState × Nat) RunState) = .error (st', k) := h
    cases h
  | cons p rest ih =>
    obtain ⟨j, row⟩ := p
    cases hc : classifyRow cfg row
    case notOpen =>
      replace h : notifyLoop cfg col rest st = .error (st', k) := by
        rw [notifyLoop_cons_eq, hc] at h; exact h
      obtain ⟨pre, rowk, post, hdec, hcl, hok, ht, hn, hs⟩ := ih _ h
      refine ⟨(j, row) :: pre, rowk, post, by rw [hdec]; rfl, hcl, hok, ?_, ?_, ?_⟩
      · rw [ht]; simp [sendIdxs, List.filterMap_cons, hc]
      · rw [hn]; simp [sendIdxs, List.filterMap_cons, hc]
      · rw [hs]; simp [sendIdxs, List.filterMap_cons, hc]
    case noDue =>
      replace h : notifyLoop cfg col rest st = .error (st', k) := by
        rw [notifyLoop_cons_eq, hc] at h; exact h
      obtain ⟨pre, rowk, post, hdec, hcl, hok, ht, hn, hs⟩ := ih _ h
      refine ⟨(j, row) :: pre, rowk, post, by rw [hdec]; rfl, hcl, hok, ?_, ?_, ?_⟩
      · rw [ht]; simp [sendIdxs, List.filterMap_cons, hc]
      · rw [hn]; simp [sendIdxs, List.filterMap_cons, hc]
      · rw [hs]; simp [sendIdxs, List.filterMap_cons, hc]
    case unparsable =>
      replace h : notifyLoop cfg col rest st = .error (st', k) := by
        rw [notifyLoop_cons_eq, hc] at h; exact h
      obtain ⟨pre, rowk, post, hdec, hcl, hok, ht, hn, hs⟩ := ih _ h
      refine ⟨(j, row) :: pre, rowk, post, by rw [hdec]; rfl, hcl, hok, ?_, ?_, ?_⟩
      · rw [ht]; simp [sendIdxs, List.filterMap_cons, hc]
      · rw [hn]; simp [sendIdxs, List.filterMap_cons, hc]
      · rw [hs]; simp [sendIdxs, List.filterMap_cons, hc]
    case already =>
      replace h : notifyLoop cfg col rest
          { st with skipped_already := st.skipped_already + 1 } = .error (st', k) := by
        rw [notifyLoop_cons_eq, hc] at h; exact h
      obtain ⟨pre, rowk, post, hdec, hcl, hok, ht, hn, hs⟩ := ih _ h
      refine ⟨(j, row) :: pre, rowk, post, by rw [hdec]; rfl, hcl, hok, ?_, ?_, ?_⟩
      · rw [ht]; simp [sendIdxs, List.filterMap_cons, hc]
      · rw [hn]; simp [sendIdxs, List.filterMap_cons, hc]
      · rw [hs]; simp [sendIdxs, List.filterMap_cons, hc]
    case notDue =>
      replace h : notifyLoop cfg col rest
          { st with skipped_not_due := st.skipped_not_due + 1 } = .error (st', k) := by
        rw [notifyLoop_cons_eq, hc] at h; exact h
      obtain ⟨pre, rowk, post, hdec, hcl, hok, ht, hn, hs⟩ := ih _ h
      refine ⟨(j, row) :: pre, rowk, post, by rw [hdec]; rfl, hcl, hok, ?_, ?_, ?_⟩
      · rw [ht]; simp [sendIdxs, List.filterMap_cons, hc]
      · rw [hn]; simp [sendIdxs, List.filterMap_cons, hc]
      · rw [hs]; simp [sendIdxs, List.filterMap_cons, hc]
    case noChat =>
      replace h : notifyLoop cfg col rest
          { st with skipped_no_chatid := st.skipped_no_chatid + 1 } = .error (st', k) := by
        rw [notifyLoop_cons_eq, hc] at h; exact h
      obtain ⟨pre, rowk, post, hdec, hcl, hok, ht, hn, hs⟩ := ih _ h
      refine ⟨(j, row) :: pre, rowk, post, by rw [hdec]; rfl, hcl, hok, ?_, ?_, ?_⟩
      · rw [ht]; simp [sendIdxs, List.filterMap_cons, hc]
      · rw [hn]; simp [sendIdxs, List.filterMap_cons, hc]
      · rw [hs]; simp [sendIdxs, List.filterMap_cons, hc]
    case send =>
      cases hok : cfg.sendOk st.sent
      case false =>
        replace h : (Except.error (st, j) : Except (RunState × Nat) RunState)
            = .error (st', k) := by
          rw [notifyLoop_cons_eq, hc, hok] at h
          exact h
        cases h
        refine ⟨[], row, rest, rfl, hc, hok, ?_, ?_, ?_⟩
        · simp [sendIdxs, applyMarks_nil]
        · simp [sendIdxs]
        · simp [sendIdxs]
      case true =>
        replace h : notifyLoop cfg col rest
            { st with
              tbl := update_cell st.tbl j col cfg.nowIso
              sent := st.sent + 1
              sends := st.sends ++ [j] } = .error (st', k) := by
          rw [notifyLoop_cons_eq, hc, hok] at h
          exact h
        obtain ⟨pre, rowk, post, hdec, hcl, hok2, ht, hn, hs⟩ := ih _ h
        refine ⟨(j, row) :: pre, rowk, post, by rw [hdec]; rfl, hcl, hok2, ?_, ?_, ?_⟩
        · rw [ht]
          simp [sendIdxs, List.filterMap_cons, hc, applyMarks_cons]
        · rw [hn]
          simp [sendIdxs, List.filterMap_cons, hc]
          omega
        · rw [hs]
          simp [sendIdxs, List.filterMap_cons, hc]

/-- With a channel that always succeeds, the loop never raises. -/
theorem notifyLoop_ok_total (cfg : NotifierConfig) (col : Nat)
    (pairs : List (Nat × Rec)) (st : RunState)
    (hall : ∀ n, cfg.sendOk n = true) :
    ∃ st', notifyLoop cfg col pairs st = .ok st' := by
  cases h : notifyLoop cfg col pairs st with
  | ok st' => exact ⟨st', rfl⟩
  | error e =>
    obtain ⟨st', k⟩ := e
    obtain ⟨_, _, _, _, _, hok, _⟩ := notifyLoop_err_spec cfg col pairs st st' k h
    rw [hall] at hok
    cases hok

/-! ## Snapshot records and enumerated pairs -/

theorem get_all_records_length (t : Table) :
    (get_all_records t).length = t.length - 1 := by
  simp [get_all_records]

theorem get_all_records_get? (t : Table) (i : Nat) :
    (get_all_records t).get? i = (t.get? (1 + i)).map (mkRec (sheet_header t)) := by
  simp [get_all_records, List.get?_drop]
  rw [Nat.add_comm 1 i]

/-- Membership in the notifier's enumerated snapshot: row `j` of the sheet,
`2 ≤ j ≤ length`, rebuilt as a header-keyed record. -/
theorem mem_pairs_iff (t : Table) (j : Nat) (row : Rec) :
    (j, row) ∈ pyEnum 2 (get_all_records t) ↔
      2 ≤ j ∧ j ≤ t.length ∧ row = mkRec (sheet_header t) (getRow t j) := by
  rw [pyEnum_mem]
  constructor
  · rintro ⟨h2, hget⟩
    rw [get_all_records_get?] at hget
    cases hrow : t.get? (1 + (j - 2)) with
    | none => rw [hrow] at hget; cases hget
    | some raw =>
      rw [hrow] at hget
      replace hget : some (mkRec (sheet_header t) raw) = some row := hget
      injection hget with hget
      have hlen : 1 + (j - 2) < t.length := by
        rcases List.get?_eq_some.mp hrow with ⟨h', _⟩
        exact h'
      refine ⟨h2, by omega, ?_⟩
      rw [← hget]
      congr 1
      unfold getRow
      rw [getD_eq_get?_getD, show j - 1 = 1 + (j - 2) by omega, hrow]
      rfl
  · rintro ⟨h2, hlen, hrow⟩
    refine ⟨h2, ?_⟩
    rw [get_all_records_get?]
    have e : 1 + (j - 2) = j - 1 := by omega
    rw [e]
    have hlt : j - 1 < t.length := by omega
    rw [List.get?_eq_getElem?, List.getElem?_eq_getElem hlt]
    rw [hrow]
    show some (mkRec (sheet_header t) (t[j - 1])) = _
    congr 2
    unfold getRow
    rw [getD_eq_get?_getD, List.get?_eq_getElem?, List.getElem?_eq_getElem hlt]
    rfl

/-! ## `find_row_index_by_id` lemmas -/

/-- A found row really holds the identifier in the `id` column. -/
theorem find_row_spec (t : Table) (id : String) (r : Nat)
    (h : find_row_index_by_id t id = some r) :
    1 ≤ r ∧ r ≤ t.length ∧ ∃ i, idxOf? (sheet_header t) "id" = some i ∧
      (getRow t r).getD i "" = id := by
  unfold find_row_index_by_id at h
  cases hi : idxOf? (sheet_header t) "id" with
  | none => rw [hi] at h; cases h
  | some i =>
    rw [hi] at h
    replace h : (match idxOf? (t.map (fun row => row.getD i "")) id with
        | some k => some (k + 1)
        | none => none) = some r := h
    cases hk : idxOf? (t.map (fun row => row.getD i "")) id with
    | none => rw [hk] at h; cases h
    | some k =>
      rw [hk] at h
      replace h : some (k + 1) = some r := h
      injection h with h
      subst h
      have hklen : k < t.length := by
        have := idxOf?_lt_length _ _ _ hk
        simpa using this
      have hval := idxOf?_get _ _ _ hk
      rw [List.get?_eq_getElem?, List.getElem?_map] at hval
      refine ⟨by omega, by omega, i, rfl, ?_⟩
      cases hrow : t[k]? with
      | none =>
        rw [hrow] at hval
        cases hval
      | some rowk =>
        rw [hrow] at hval
        replace hval : some (rowk.getD i "") = some id := hval
        injection hval with hval
        show (getRow t (k + 1)).getD i "" = id
        have e : getRow t (k + 1) = rowk := by
          unfold getRow
          rw [show k + 1 - 1 = k by omega, getD_eq_get?_getD, List.get?_eq_getElem?, hrow]
          rfl
        rw [e]
        exact hval

/-- Searching for anything other than the literal header word `id` never
returns the header row. -/
theorem find_row_ge_two (t : Table) (id : String) (r : Nat) (hid : id ≠ "id")
    (h : find_row_index_by_id t id = some r) : 2 ≤ r := by
  obtain ⟨h1, hlen, i, hi, hval⟩ := find_row_spec t id r h
  by_contra hlt
  have hr1 : r = 1 := by omega
  subst hr1
  have hget := idxOf?_get _ _ _ hi
  have e : (getRow t 1).getD i "" = "id" := by
    show ((sheet_header t).getD i "") = "id"
    rw [getD_eq_get?_getD, hget]
    rfl
  exact hid (hval.symm.trans e)

/-! ## `update_cells_in_row` and `settleById` lemmas -/

theorem ucrAux_cons (hd : List String) (r : Nat) (kv : String × String)
    (rest : Rec) (t : Table) :
    ucrAux hd r (kv :: rest) t = ucrAux hd r rest
      (match idxOf? hd kv.1 with
       | some i => update_cell t r (i + 1) kv.2
       | none => t) := rfl

theorem sheet_header_ucrAux (hd : List String) (r : Nat) (ups : Rec) (t : Table)
    (hr : 2 ≤ r) : sheet_header (ucrAux hd r ups t) = sheet_header t := by
  induction ups generalizing t with
  | nil => rfl
  | cons kv rest ih =>
    rw [ucrAux_cons]
    cases hi : idxOf? hd kv.1 with
    | none => exact ih t
    | some i =>
      rw [ih (update_cell t r (i + 1) kv.2)]
      exact sheet_header_update_cell t r (i + 1) kv.2 hr

theorem getRow_ucrAux_ne (hd : List String) (r : Nat) (ups : Rec) (t : Table)
    (k : Nat) (hk : k - 1 ≠ r - 1) :
    getRow (ucrAux hd r ups t) k = getRow t k := by
  induction ups generalizing t with
  | nil => rfl
  | cons kv rest ih =>
    rw [ucrAux_cons]
    cases hi : idxOf? hd kv.1 with
    | none => exact ih t
    | some i =>
      rw [ih (update_cell t r (i + 1) kv.2)]
      exact getRow_update_cell_ne t r (i + 1) kv.2 k hk

theorem get?_ucrAux_ne (hd : List String) (r : Nat) (ups : Rec) (t : Table)
    (m : Nat) (hm : m ≠ r - 1) (hr : 1 ≤ r) (hrange : r ≤ t.length) :
    (ucrAux hd r ups t).get? m = t.get? m := by
  induction ups generalizing t with
  | nil => rfl
  | cons kv rest ih =>
    rw [ucrAux_cons]
    cases hi : idxOf? hd kv.1 with
    | none => exact ih t hrange
    | some i =>
      have hlen : (update_cell t r (i + 1) kv.2).length = t.length :=
        update_cell_length t r (i + 1) kv.2 hrange
      rw [ih (update_cell t r (i + 1) kv.2) (by omega)]
      unfold update_cell
      have hpad : padTable r t = t := by
        unfold padTable
        rw [show r - t.length = 0 by omega]
        simp
      rw [hpad]
      rw [List.get?_set_ne _ _ (fun e => hm e.symm)]

theorem recGetAt_ucrAux_ne_row (hd : List String) (r : Nat) (ups : Rec) (t : Table)
    (k : Nat) (key : String) (hr : 2 ≤ r) (hk : k ≠ r) (hhd : hd = sheet_header t) :
    recGetAt (ucrAux hd r ups t) k key = recGetAt t k key := by
  rw [recGetAt_eq, recGetAt_eq, sheet_header_ucrAux hd r ups t hr,
    getRow_ucrAux_ne hd r ups t k (by omega)]

/-- Fields not named in the update are untouched on every row, the written
row included. -/
theorem recGetAt_ucrAux_other (hd : List String) (r : Nat) (ups : Rec) (t : Table)
    (j : Nat) (key : String) (hr : 2 ≤ r) (hhd : hd = sheet_header t)
    (hkey : ∀ kv ∈ ups, key ≠ kv.1) :
    recGetAt (ucrAux hd r ups t) j key = recGetAt t j key := by
  induction ups generalizing t with
  | nil => rfl
  | cons kv rest ih =>
    rw [ucrAux_cons]
    cases hi : idxOf? hd kv.1 with
    | none => exact ih t hhd (fun q hq => hkey q (by simp [hq]))
    | some i =>
      have hhd' : hd = sheet_header (update_cell t r (i + 1) kv.2) := by
        rw [sheet_header_update_cell t r (i + 1) kv.2 hr]
        exact hhd
      rw [ih (update_cell t r (i + 1) kv.2) hhd' (fun q hq => hkey q (by simp [hq]))]
      by_cases hj : j = r
      · subst hj
        refine recGetAt_update_cell_other t j (i + 1) kv.2 key hr (by omega) ?_
        intro i' hi'
        have : i' ≠ i := by
          refine idxOf?_ne_of_ne (sheet_header t) key kv.1 i' i ?_ hi' (hhd ▸ hi)
          exact hkey kv (by simp)
        omega
      · exact recGetAt_update_cell_ne t r (i + 1) kv.2 j key hr hj

theorem settleById_none (t : Table) (id now : String)
    (h : find_row_index_by_id t id = none) : settleById t id now = t := by
  unfold settleById
  rw [h]

theorem deleteById_none (t : Table) (id : String)
    (h : find_row_index_by_id t id = none) : deleteById t id = t := by
  unfold deleteById
  rw [h]

theorem settleById_some (t : Table) (id now : String) (r : Nat)
    (h : find_row_index_by_id t id = some r) :
    settleById t id now =
      update_cells_in_row t r [("status", "PAID"), ("paid_at", now)] := by
  unfold settleById
  rw [h]

theorem deleteById_some (t : Table) (id : String) (r : Nat)
    (h : find_row_index_by_id t id = some r) :
    deleteById t id = delete_row_at t r := by
  unfold deleteById
  rw [h]

/-- The settle update writes status `PAID` when the column exists. -/
theorem settle_status_mem (t : Table) (now : String) (r : Nat) (hr : 2 ≤ r)
    (hs : "status" ∈ sheet_header t) :
    recGetAt (update_cells_in_row t r [("status", "PAID"), ("paid_at", now)])
      r "status" = "PAID" := by
  obtain ⟨i, hi⟩ := idxOf?_some_of_mem _ _ hs
  unfold update_cells_in_row
  rw [ucrAux_cons, hi]
  show recGetAt (ucrAux (sheet_header t) r [("paid_at", now)]
    (update_cell t r (i + 1) "PAID")) r "status" = "PAID"
  rw [recGetAt_ucrAux_other (sheet_header t) r [("paid_at", now)]
    (update_cell t r (i + 1) "PAID") r "status" hr
    (by rw [sheet_header_update_cell t r (i + 1) "PAID" hr])
    (by intro kv hkv; simp at hkv; subst hkv; simp)]
  refine recGetAt_update_cell_self t r (i + 1) "PAID" "status" hr (by omega) ?_
  simpa using hi

/-- The settle update leaves status untouched when the column is missing. -/
theorem settle_status_not_mem (t : Table) (now : String) (r : Nat) (j : Nat)
    (hr : 2 ≤ r) (hs : "status" ∉ sheet_header t) :
    recGetAt (update_cells_in_row t r [("status", "PAID"), ("paid_at", now)])
      j "status" = recGetAt t j "status" := by
  unfold update_cells_in_row
  rw [ucrAux_cons, (idxOf?_eq_none_iff _ _).mpr hs]
  show recGetAt (ucrAux (sheet_header t) r [("paid_at", now)] t) j "status" = _
  exact recGetAt_ucrAux_other (sheet_header t) r [("paid_at", now)] t j "status" hr rfl
    (by intro kv hkv; simp at hkv; subst hkv; simp)

/-- The settle update writes `paid_at` when the column exists. -/
theorem settle_paid_mem (t : Table) (now : String) (r : Nat) (hr : 2 ≤ r)
    (hp : "paid_at" ∈ sheet_header t) :
    recGetAt (update_cells_in_row t r [("status", "PAID"), ("paid_at", now)])
      r "paid_at" = now := by
  obtain ⟨i, hi⟩ := idxOf?_some_of_mem _ _ hp
  unfold update_cells_in_row
  rw [ucrAux_cons]
  cases hst : idxOf? (sheet_header t) "status" with
  | none =>
    show recGetAt (ucrAux (sheet_header t) r [("paid_at", now)] t) r "paid_at" = now
    rw [ucrAux_cons, hi]
    show recGetAt (ucrAux (sheet_header t) r [] (update_cell t r (i + 1) now)) r
      "paid_at" = now
    refine recGetAt_update_cell_self t r (i + 1) now "paid_at" hr (by omega) ?_
    simpa using hi
  | some is =>
    show recGetAt (ucrAux (sheet_header t) r [("paid_at", now)]
      (update_cell t r (is + 1) "PAID")) r "paid_at" = now
    rw [ucrAux_cons, hi]
    have hhd : sheet_header (update_cell t r (is + 1) "PAID") = sheet_header t :=
      sheet_header_update_cell t r (is + 1) "PAID" hr
    show recGetAt (ucrAux (sheet_header t) r []
      (update_cell (update_cell t r (is + 1) "PAID") r (i + 1) now)) r "paid_at" = now
    refine recGetAt_update_cell_self (update_cell t r (is + 1) "PAID") r (i + 1) now
      "paid_at" hr (by omega) ?_
    rw [hhd]
    simpa using hi

/-- No field named neither `status` nor `paid_at` is touched by a settle, on
any row; in particular the `id` column is stable. -/
theorem settle_other_field (t : Table) (now : String) (r : Nat) (j : Nat)
    (key : String) (hr : 2 ≤ r) (h1 : key ≠ "status") (h2 : key ≠ "paid_at") :
    recGetAt (update_cells_in_row t r [("status", "PAID"), ("paid_at", now)])
      j key = recGetAt t j key := by
  unfold update_cells_in_row
  refine recGetAt_ucrAux_other (sheet_header t) r _ t j key hr rfl ?_
  intro kv hkv
  simp at hkv
  rcases hkv with h | h <;> subst h <;> simpa

theorem settle_header (t : Table) (now : String) (r : Nat) (hr : 2 ≤ r) :
    sheet_header (update_cells_in_row t r [("status", "PAID"), ("paid_at", now)])
      = sheet_header t :=
  sheet_header_ucrAux (sheet_header t) r _ t hr

theorem settle_other_rows (t : Table) (now : String) (r : Nat) (j : Nat)
    (key : String) (hr : 2 ≤ r) (hj : j ≠ r) :
    recGetAt (update_cells_in_row t r [("status", "PAID"), ("paid_at", now)])
      j key = recGetAt t j key :=
  recGetAt_ucrAux_ne_row (sheet_header t) r _ t j key hr hj rfl

/-! ## `delete_row_at` lemmas -/

theorem getRow_delete_row_at (t : Table) (m j : Nat) (hj : 1 ≤ j) :
    getRow (delete_row_at t m) j =
      if j - 1 < m - 1 then getRow t j else getRow t (j + 1) := by
  unfold delete_row_at getRow
  rw [getD_eq_get?_getD, getD_eq_get?_getD, getD_eq_get?_getD,
    List.get?_eq_getElem?, List.get?_eq_getElem?, List.get?_eq_getElem?,
    List.getElem?_eraseIdx]
  by_cases h : j - 1 < m - 1
  · rw [if_pos h, if_pos h]
  · rw [if_neg h, if_neg h, show j + 1 - 1 = j - 1 + 1 by omega]

/-! ## `append_row_to_sheet` lemmas -/

theorem append_length (t : Table) (row : Rec) :
    (append_row_to_sheet t row).length = t.length + 1 := by
  simp [append_row_to_sheet]

theorem sheet_header_append (t : Table) (row : Rec) (h : 1 ≤ t.length) :
    sheet_header (append_row_to_sheet t row) = sheet_header t := by
  unfold append_row_to_sheet sheet_header getRow
  exact List.getD_append _ _ _ _ (by omega)

theorem recGetAt_append_le (t : Table) (row : Rec) (j : Nat) (key : String)
    (h1 : 1 ≤ t.length) (hj : j ≤ t.length) :
    recGetAt (append_row_to_sheet t row) j key = recGetAt t j key := by
  rw [recGetAt_eq, recGetAt_eq, sheet_header_append t row h1]
  have e : getRow (append_row_to_sheet t row) j = getRow t j := by
    unfold append_row_to_sheet getRow
    exact List.getD_append _ _ _ _ (by omega)
  rw [e]

theorem recGetAt_append_new (t : Table) (row : Rec) (key : String)
    (h1 : 1 ≤ t.length) :
    recGetAt (append_row_to_sheet t row) (t.length + 1) key
        = (row.lookup key).getD "" ∨
      recGetAt (append_row_to_sheet t row) (t.length + 1) key = "" := by
  rw [recGetAt_eq, sheet_header_append t row h1]
  cases hi : idxOf? (sheet_header t) key with
  | none => exact Or.inr rfl
  | some i =>
    left
    have hlt : i < (sheet_header t).length := idxOf?_lt_length _ _ _ hi
    have hkey := idxOf?_get _ _ _ hi
    have e : getRow (append_row_to_sheet t row) (t.length + 1)
        = (sheet_header t).map (fun h => (row.lookup h).getD "") := by
      unfold append_row_to_sheet getRow
      rw [List.getD_append_right _ _ _ _ (by omega),
        show t.length + 1 - 1 - t.length = 0 by omega]
      rfl
    show (getRow (append_row_to_sheet t row) (t.length + 1)).getD i "" = _
    rw [e, getD_eq_get?_getD, List.get?_eq_getElem?, List.getElem?_map,
      List.getElem?_eq_getElem hlt]
    have hgk : (sheet_header t).get ⟨i, hlt⟩ = key := by
      have h' := hkey
      rw [List.get?_eq_get hlt] at h'
      injection h'
    show (row.lookup ((sheet_header t).get ⟨i, hlt⟩)).getD "" = (row.lookup key).getD ""
    rw [hgk]

/-! ## Preservation of the settled status by every later operation -/

theorem paidInv_of_recGetAt_eq (txn_id : String) (t t' : Table)
    (h : ∀ j, recGetAt t' j "id" = recGetAt t j "id" ∧
      recGetAt t' j "status" = recGetAt t j "status")
    (hinv : PaidInv txn_id t) : PaidInv txn_id t' := by
  intro j hid
  rw [(h j).2]
  exact hinv j (by rw [← (h j).1]; exact hid)

theorem paidInv_ensure (txn_id : String) (t : Table) (name : String)
    (hgood : GoodId txn_id) (h1 : "id" ≠ name) (h2 : "status" ≠ name)
    (hinv : PaidInv txn_id t) :
    PaidInv txn_id (ensure_column_exists t name) := by
  intro j hid
  rcases Nat.lt_or_ge j 2 with hj | hj
  · rw [recGetAt_le_one _ j "id" (by omega)] at hid
    rcases recGetAt_one (ensure_column_exists t name) "id" with h | h
    · rw [h] at hid; exact absurd hid.symm hgood.2
    · rw [h] at hid; exact absurd hid.symm hgood.1
  · rw [recGetAt_ensure t name j "id" hj h1] at hid
    rw [recGetAt_ensure t name j "status" hj h2]
    exact hinv j hid

theorem paidInv_applyMarks (txn_id : String) (t : Table) (col : Nat) (v : String)
    (S : List Nat) (hcol : 1 ≤ col) (hS : ∀ j ∈ S, 2 ≤ j)
    (hhd : idxOf? (sheet_header t) "notified_7d_at" = some (col - 1))
    (hinv : PaidInv txn_id t) : PaidInv txn_id (applyMarks col v t S) := by
  refine paidInv_of_recGetAt_eq txn_id t _ (fun j => ⟨?_, ?_⟩) hinv
  · rw [recGetAt_applyMarks col v t S hcol hS hhd j "id", if_neg (by simp)]
  · rw [recGetAt_applyMarks col v t S hcol hS hhd j "status", if_neg (by simp)]

theorem paidInv_settle (txn_id : String) (t : Table) (sid now : String)
    (hgood : GoodId txn_id) (hsid : sid ≠ "id") (hinv : PaidInv txn_id t) :
    PaidInv txn_id (settleById t sid now) := by
  cases hfind : find_row_index_by_id t sid with
  | none => rw [settleById_none t sid now hfind]; exact hinv
  | some r =>
    have hr2 : 2 ≤ r := find_row_ge_two t sid r hsid hfind
    rw [settleById_some t sid now r hfind]
    intro j hid
    have hid' : recGetAt t j "id" = txn_id := by
      rw [← settle_other_field t now r j "id" hr2 (by decide) (by decide)]
      exact hid
    have hstat := hinv j hid'
    by_cases hj : j = r
    · subst hj
      by_cases hs : "status" ∈ sheet_header t
      · exact settle_status_mem t now j hr2 hs
      · rw [settle_status_not_mem t now j j hr2 hs]
        exact hstat
    · rw [settle_other_rows t now r j "status" hr2 hj]
      exact hstat

theorem paidInv_delete (txn_id : String) (t : Table) (did : String)
    (hgood : GoodId txn_id) (hdid : did ≠ "id") (hinv : PaidInv txn_id t) :
    PaidInv txn_id (deleteById t did) := by
  cases hfind : find_row_index_by_id t did with
  | none => rw [deleteById_none t did hfind]; exact hinv
  | some r =>
    have hr2 : 2 ≤ r := find_row_ge_two t did r hdid hfind
    rw [deleteById_some t did r hfind]
    have hheader : sheet_header (delete_row_at t r) = sheet_header t := by
      unfold sheet_header
      rw [getRow_delete_row_at t r 1 (by omega), if_pos (by omega)]
    intro j hid
    rcases Nat.lt_or_ge j 1 with hj | hj
    · have hj0 : j = 0 := by omega
      subst hj0
      rw [recGetAt_le_one _ 0 "id" (by omega)] at hid
      rcases recGetAt_one (delete_row_at t r) "id" with h | h
      · rw [h] at hid; exact absurd hid.symm hgood.2
      · rw [h] at hid; exact absurd hid.symm hgood.1
    · by_cases hlt : j - 1 < r - 1
      · have e : ∀ key, recGetAt (delete_row_at t r) j key = recGetAt t j key := by
          intro key
          rw [recGetAt_eq, recGetAt_eq, hheader,
            getRow_delete_row_at t r j (by omega), if_pos hlt]
        rw [e "status"]
        rw [e "id"] at hid
        exact hinv j hid
      · have e : ∀ key, recGetAt (delete_row_at t r) j key
            = recGetAt t (j + 1) key := by
          intro key
          rw [recGetAt_eq, recGetAt_eq, hheader,
            getRow_delete_row_at t r j (by omega), if_neg hlt]
        rw [e "status"]
        rw [e "id"] at hid
        exact hinv (j + 1) hid

theorem paidInv_append (txn_id : String) (t : Table) (s : Submission)
    (newId nowIso : String) (hgood : GoodId txn_id) (hnew : newId ≠ txn_id)
    (hinv : PaidInv txn_id t) :
    PaidInv txn_id (sidebar_add_form t s newId nowIso).1 := by
  unfold sidebar_add_form
  by_cases h1 : s.debtor = s.creditor
  · rw [if_pos h1]; exact hinv
  rw [if_neg h1]
  by_cases h2 : pyStrip s.description = ""
  · rw [if_pos h2]; exact hinv
  rw [if_neg h2]
  by_cases h3 : s.cents ≤ 0
  · rw [if_pos h3]; exact hinv
  rw [if_neg h3]
  show PaidInv txn_id (append_row_to_sheet (ensure_column_exists t "notified_7d_at")
    [("id", newId), ("debtor", s.debtor), ("creditor", s.creditor),
     ("amount_cents", toString s.cents), ("description", pyStrip s.description),
     ("category", s.category), ("due_date", s.due_iso), ("status", "OPEN"),
     ("created_at", nowIso), ("paid_at", ""), ("notified_7d_at", "")], none).1
  have hinv1 : PaidInv txn_id (ensure_column_exists t "notified_7d_at") :=
    paidInv_ensure txn_id t _ hgood (by decide) (by decide) hinv
  have hlen1 : 1 ≤ (ensure_column_exists t "notified_7d_at").length := by
    by_cases hm : "notified_7d_at" ∈ sheet_header t
    · rw [ensure_eq_of_mem t _ hm]
      cases t with
      | nil => simp [sheet_header, getRow] at hm
      | cons a as => simp
    · unfold ensure_column_exists
      rw [if_neg hm]
      unfold update_cell
      rw [List.length_set, padTable_length]
      omega
  intro j hid
  rcases Nat.lt_or_ge j 2 with hj | hj
  · rw [recGetAt_le_one _ j "id" (by omega)] at hid
    rcases recGetAt_one (append_row_to_sheet (ensure_column_exists t "notified_7d_at") _)
        "id" with h | h
    · rw [h] at hid; exact absurd hid.symm hgood.2
    · rw [h] at hid; exact absurd hid.symm hgood.1
  · rcases Nat.lt_or_ge ((ensure_column_exists t "notified_7d_at").length + 1) j
        with hgt | hle
    · rw [recGetAt_phantom _ j "id" (by rw [append_length]; omega)] at hid
      exact absurd hid.symm hgood.1
    · rcases Nat.lt_or_ge j ((ensure_column_exists t "notified_7d_at").length + 1)
          with hjle | hjge
      · rw [recGetAt_append_le _ _ j "id" hlen1 (by omega)] at hid
        rw [recGetAt_append_le _ _ j "status" hlen1 (by omega)]
        exact hinv1 j hid
      · have hj_eq : j = (ensure_column_exists t "notified_7d_at").length + 1 := by
          omega
        subst hj_eq
        rcases recGetAt_append_new (ensure_column_exists t "notified_7d_at") _ "id"
            hlen1 with h | h
        · rw [h] at hid
          have e : (List.lookup "id"
              [("id", newId), ("debtor", s.debtor), ("creditor", s.creditor),
               ("amount_cents", toString s.cents), ("description", pyStrip s.description),
               ("category", s.category), ("due_date", s.due_iso), ("status", "OPEN"),
               ("created_at", nowIso), ("paid_at", ""), ("notified_7d_at", "")]).getD ""
              = newId := by simp [List.lookup]
          rw [e] at hid
          exact absurd hid hnew
        · rw [h] at hid
          exact absurd hid.symm hgood.1

theorem paidInv_notify (txn_id : String) (cfg : NotifierConfig) (t : Table)
    (hgood : GoodId txn_id) (hinv : PaidInv txn_id t) :
    PaidInv txn_id (run_due_soon_notifications cfg t).finalTbl := by
  unfold run_due_soon_notifications
  by_cases h1 : cfg.token = ""
  · rw [if_pos h1]; exact hinv
  rw [if_neg h1]
  by_cases h2 : cfg.chat_ids = []
  · rw [if_pos h2]; exact hinv
  rw [if_neg h2]
  have hinv1 : PaidInv txn_id (ensure_column_exists t "notified_7d_at") :=
    paidInv_ensure txn_id t _ hgood (by decide) (by decide) hinv
  cases hi : idxOf? (sheet_header (ensure_column_exists t "notified_7d_at"))
      "notified_7d_at" with
  | none => exact hinv1
  | some i =>
    show PaidInv txn_id (match run_core cfg (i + 1)
        (get_all_records (ensure_column_exists t "notified_7d_at"))
        (ensure_column_exists t "notified_7d_at") with
      | Except.ok st => RunResult.ok st
      | Except.error (st, k) => RunResult.aborted st k).finalTbl
    cases hr : run_core cfg (i + 1)
        (get_all_records (ensure_column_exists t "notified_7d_at"))
        (ensure_column_exists t "notified_7d_at") with
    | ok st =>
      obtain ⟨e1, _, _, _, _, _⟩ := notifyLoop_ok_spec cfg (i + 1) _ _ st hr
      show PaidInv txn_id st.tbl
      rw [e1]
      refine paidInv_applyMarks txn_id _ (i + 1) cfg.nowIso _ (by omega) ?_ ?_ hinv1
      · intro j hj
        rw [mem_sendIdxs] at hj
        obtain ⟨row, hmem, _⟩ := hj
        exact ((mem_pairs_iff _ j row).mp hmem).1
      · rw [show i + 1 - 1 = i by omega]
        exact hi
    | error e =>
      obtain ⟨st, k⟩ := e
      obtain ⟨pre, rowk, post, hdec, _, _, e1, _, _⟩ :=
        notifyLoop_err_spec cfg (i + 1) _ _ st k hr
      show PaidInv txn_id st.tbl
      rw [e1]
      refine paidInv_applyMarks txn_id _ (i + 1) cfg.nowIso _ (by omega) ?_ ?_ hinv1
      · intro j hj
        rw [mem_sendIdxs] at hj
        obtain ⟨row, hmem, _⟩ := hj
        have hmem2 : (j, row) ∈ pyEnum 2
            (get_all_records (ensure_column_exists t "notified_7d_at")) := by
          rw [hdec]
          exact List.mem_append_left _ hmem
        exact ((mem_pairs_iff _ j row).mp hmem2).1
      · rw [show i + 1 - 1 = i by omega]
        exact hi

/-- Once settled, the `PAID` status of an obligation survives every later
application operation whose identifiers do not collide with it. -/
theorem paidInv_applyOps (txn_id : String) (t : Table) (ops : List LedgerOp)
    (hgood : GoodId txn_id) (hops : ∀ op ∈ ops, OpOK txn_id op)
    (hinv : PaidInv txn_id t) : PaidInv txn_id (applyOps t ops) := by
  induction ops generalizing t with
  | nil => exact hinv
  | cons op rest ih =>
    show PaidInv txn_id (applyOps (applyOp t op) rest)
    refine ih (applyOp t op) (fun q hq => hops q (by simp [hq])) ?_
    have hop := hops op (by simp)
    cases op with
    | settleOp sid now => exact paidInv_settle txn_id t sid now hgood hop hinv
    | deleteOp did => exact paidInv_delete txn_id t did hgood hop hinv
    | appendOp s nid niso => exact paidInv_append txn_id t s nid niso hgood hop hinv
    | notifyOp cfg => exact paidInv_notify txn_id cfg t hgood hinv

/-! ## Counting helpers for the re-run argument -/

theorem mem_of_idxOf?_some (l : List String) (k : String) (i : Nat)
    (h : idxOf? l k = some i) : k ∈ l := by
  by_contra hmem
  rw [(idxOf?_eq_none_iff l k).mpr hmem] at h
  cases h

theorem lookup_map_self (l : List String) (g : String → String) (c : String)
    (h : c ∈ l) : (l.map (fun x => (x, g x))).lookup c = some (g c) := by
  induction l with
  | nil => cases h
  | cons a as ih =>
    by_cases hac : c = a
    · subst hac
      simp [List.lookup]
    · have hmem : c ∈ as := by
        rcases List.mem_cons.mp h with h' | h'
        · exact absurd h' hac
        · exact h'
      simp only [List.map_cons, List.lookup, show (c == a) = false by simp [hac]]
      exact ih hmem

theorem outCount_pyEnum (cfg : NotifierConfig) (o : Outcome) (s : Nat) (l : List Rec) :
    outCount cfg o (pyEnum s l) = l.countP (fun r => classifyRow cfg r == o) := by
  induction l generalizing s with
  | nil => rfl
  | cons r t ih =>
    show outCount cfg o ((s, r) :: pyEnum (s + 1) t) = _
    rw [outCount, List.countP_cons, List.countP_cons]
    rw [show (pyEnum (s + 1) t).countP (fun p => classifyRow cfg p.2 == o)
      = outCount cfg o (pyEnum (s + 1) t) from rfl, ih (s + 1)]

theorem countP_reclass_already (cfg : NotifierConfig) (l : List Rec) :
    l.countP (fun r => reclass (classifyRow cfg r) == .already)
      = l.countP (fun r => classifyRow cfg r == .already)
        + l.countP (fun r => classifyRow cfg r == .send) := by
  induction l with
  | nil => rfl
  | cons r t ih =>
    rw [List.countP_cons, List.countP_cons, List.countP_cons, ih]
    cases hc : classifyRow cfg r <;> simp [reclass, hc] <;> omega

theorem countP_reclass_other (cfg : NotifierConfig) (l : List Rec) (o : Outcome)
    (ho1 : o ≠ .already) (ho2 : o ≠ .send) :
    l.countP (fun r => reclass (classifyRow cfg r) == o)
      = l.countP (fun r => classifyRow cfg r == o) := by
  induction l with
  | nil => rfl
  | cons r t ih =>
    rw [List.countP_cons, List.countP_cons, ih]
    cases hc : classifyRow cfg r <;>
      simp [reclass, hc, Ne.symm ho1, Ne.symm ho2]

theorem countP_pointwise (cfg : NotifierConfig) (l1 l2 : List Rec)
    (hlen : l2.length = l1.length)
    (hrel : ∀ j r1 r2, l1.get? j = some r1 → l2.get? j = some r2 →
      classifyRow cfg r2 = reclass (classifyRow cfg r1)) (o : Outcome) :
    l2.countP (fun r => classifyRow cfg r == o)
      = l1.countP (fun r => reclass (classifyRow cfg r) == o) := by
  induction l1 generalizing l2 with
  | nil =>
    cases l2 with
    | nil => rfl
    | cons r2 t2 => simp at hlen
  | cons r1 t1 ih =>
    cases l2 with
    | nil => simp at hlen
    | cons r2 t2 =>
      have hhead := hrel 0 r1 r2 rfl rfl
      have ht := ih t2 (by simpa using hlen)
        (fun j a b h1 h2 => hrel (j + 1) a b h1 h2)
      simp only [List.countP_cons, ht, hhead]

theorem no_send_pointwise (cfg : NotifierConfig) (l1 l2 : List Rec)
    (hlen : l2.length = l1.length)
    (hrel : ∀ j r1 r2, l1.get? j = some r1 → l2.get? j = some r2 →
      classifyRow cfg r2 = reclass (classifyRow cfg r1)) :
    ∀ r2 ∈ l2, classifyRow cfg r2 ≠ .send := by
  intro r2 hmem
  obtain ⟨j, hj⟩ := List.mem_iff_get?.mp hmem
  have hjlt : j < l2.length := by
    rcases List.get?_eq_some.mp hj with ⟨h', _⟩
    exact h'
  cases hg1 : l1.get? j with
  | none =>
    rw [List.get?_eq_none] at hg1
    omega
  | some r1 =>
    rw [hrel j r1 r2 hg1 hj]
    exact reclass_ne_send _

/-- A non-empty `notified_7d_at` marker keeps a row out of every run's send
log: the send branch requires an empty marker. -/
theorem marker_nonempty_not_sent (cfg : NotifierConfig) (t : Table) (k : Nat)
    (h : pyStrip (recGetAt t k "notified_7d_at") ≠ "") :
    k ∉ (run_due_soon_notifications cfg t).sendsList := by
  by_cases hm : "notified_7d_at" ∈ sheet_header t
  case neg =>
    exfalso
    apply h
    have e : recGetAt t k "notified_7d_at" = "" := by
      rw [recGetAt_eq, (idxOf?_eq_none_iff _ _).mpr hm]
    rw [e]
    decide
  intro hmem
  unfold run_due_soon_notifications at hmem
  by_cases h1 : cfg.token = ""
  · rw [if_pos h1] at hmem; simp [RunResult.sendsList] at hmem
  rw [if_neg h1] at hmem
  by_cases h2 : cfg.chat_ids = []
  · rw [if_pos h2] at hmem; simp [RunResult.sendsList] at hmem
  rw [if_neg h2] at hmem
  rw [ensure_eq_of_mem t _ hm] at hmem
  cases hi : idxOf? (sheet_header t) "notified_7d_at" with
  | none => rw [hi] at hmem; simp [RunResult.sendsList] at hmem
  | some i =>
    rw [hi] at hmem
    replace hmem : k ∈ (match run_core cfg (i + 1) (get_all_records t) t with
      | Except.ok st => RunResult.ok st
      | Except.error (st, k) => RunResult.aborted st k).sendsList := hmem
    have hsend : ∃ row, (k, row) ∈ pyEnum 2 (get_all_records t) ∧
        classifyRow cfg row = .send := by
      cases hr : run_core cfg (i + 1) (get_all_records t) t with
      | ok st =>
        rw [hr] at hmem
        replace hmem : k ∈ st.sends := hmem
        obtain ⟨_, _, _, _, _, e6⟩ :=
          notifyLoop_ok_spec cfg (i + 1) _ _ st hr
        rw [e6] at hmem
        replace hmem : k ∈ sendIdxs cfg (pyEnum 2 (get_all_records t)) := by
          simpa [initState] using hmem
        exact (mem_sendIdxs cfg _ k).mp hmem
      | error e =>
        obtain ⟨st, k'⟩ := e
        rw [hr] at hmem
        replace hmem : k ∈ st.sends := hmem
        obtain ⟨pre, rowk, post, hdec, _, _, _, _, e6⟩ :=
          notifyLoop_err_spec cfg (i + 1) _ _ st k' hr
        rw [e6] at hmem
        replace hmem : k ∈ sendIdxs cfg pre := by simpa [initState] using hmem
        obtain ⟨row, hmemp, hcl⟩ := (mem_sendIdxs cfg pre k).mp hmem
        refine ⟨row, ?_, hcl⟩
        rw [hdec]
        exact List.mem_append_left _ hmemp
    obtain ⟨row, hmemp, hcl⟩ := hsend
    obtain ⟨hk2, hklen, hrow⟩ := (mem_pairs_iff t k row).mp hmemp
    apply classify_ne_send_of_marker cfg row ?_ hcl
    rw [hrow]
    exact h

/-! ## The claims -/

/-- C5.  Creation validation: a submission with debtor equal to creditor, or a
whitespace-only description, or a non-positive minor-unit amount, is rejected
with a user-visible message (`st.sidebar.error`) and the worksheet is
returned untouched — the three `return`s fire before `ensure_column_exists`
and `append_row_to_sheet`, so no store write of any kind happens. -/
theorem c5_creation_validation (t : Table) (s : Submission) (newId nowIso : String)
    (h : s.debtor = s.creditor ∨ pyStrip s.description = "" ∨ s.cents ≤ 0) :
    (sidebar_add_form t s newId nowIso).1 = t ∧
    (sidebar_add_form t s newId nowIso).2.isSome = true := by
  unfold sidebar_add_form
  by_cases h1 : s.debtor = s.creditor
  · rw [if_pos h1]; exact ⟨rfl, rfl⟩
  rw [if_neg h1]
  by_cases h2 : pyStrip s.description = ""
  · rw [if_pos h2]; exact ⟨rfl, rfl⟩
  rw [if_neg h2]
  by_cases h3 : s.cents ≤ 0
  · rw [if_pos h3]; exact ⟨rfl, rfl⟩
  · rcases h with h | h | h
    · exact absurd h h1
    · exact absurd h h2
    · exact absurd h h3

theorem c5_creation_validation_witness :
    (sidebar_add_form [fullHeader] ⟨"Elia", "Elia", 500, "Altro", "libri", ""⟩
      "u1" "2026-10-12T10:00:00").1 = [fullHeader] ∧
    (sidebar_add_form [fullHeader] ⟨"Elia", "Elia", 500, "Altro", "libri", ""⟩
      "u1" "2026-10-12T10:00:00").2.isSome = true :=
  c5_creation_validation [fullHeader] ⟨"Elia", "Elia", 500, "Altro", "libri", ""⟩
    "u1" "2026-10-12T10:00:00" (Or.inl rfl)

/-- C6.  `sheet_to_df` schema tolerance: every produced record carries exactly
the expected columns, any expected column absent from the physical header is
synthesized as the empty string on every record, and a table with no data
rows yields the empty sequence (with the expected column set), not an
error. -/
theorem c6_readAll_schema_tolerance (t : Table) :
    (∀ c ∈ expectedCols, c ∉ sheet_header t →
      ∀ out ∈ sheet_to_df t, out.lookup c = some "") ∧
    (∀ out ∈ sheet_to_df t, out.map Prod.fst = expectedCols) ∧
    (t.drop 1 = [] → sheet_to_df t = []) := by
  refine ⟨?_, ?_, ?_⟩
  · intro c hc hnot out hout
    unfold sheet_to_df at hout
    rw [List.mem_map] at hout
    obtain ⟨r, hr, rfl⟩ := hout
    have hval : recGet r c = "" := by
      unfold get_all_records at hr
      rw [List.mem_map] at hr
      obtain ⟨raw, _, rfl⟩ := hr
      exact recGet_eq_empty_of_not_mem _ _ _ hnot
    rw [lookup_map_self expectedCols (fun c' => recGet r c') c hc, hval]
  · intro out hout
    unfold sheet_to_df at hout
    rw [List.mem_map] at hout
    obtain ⟨r, _, rfl⟩ := hout
    simp
    exact List.map_id expectedCols
  · intro h
    unfold sheet_to_df get_all_records
    rw [h]
    rfl

theorem c6_readAll_schema_tolerance_witness :
    ([("id", "x"), ("debtor", "Elia"), ("creditor", ""), ("amount_cents", ""),
      ("description", ""), ("category", ""), ("due_date", ""), ("status", ""),
      ("created_at", ""), ("paid_at", ""),
      ("notified_7d_at", "")].lookup "notified_7d_at") = some "" ∧
    sheet_to_df [["id", "debtor"]] = [] :=
  ⟨(c6_readAll_schema_tolerance [["id", "debtor"], ["x", "Elia"]]).1
      "notified_7d_at" (by decide) (by decide) _ (by decide),
    (c6_readAll_schema_tolerance [["id", "debtor"]]).2.2 rfl⟩

/-- C9 counterexample.  The claim says a row whose `due_date` is non-empty but
unparsable and whose `notified_7d_at` is already set is skipped at the
unparsable-date step and *not* counted as skipped-already-notified.  On the
code, the `notified_7d_at` check (line 193) runs *before* `strptime` (line
198), so this row is counted as `skipped_already`: the run on a table holding
exactly one such row reports `skipped_already = 1`, where the claim demands
`0`. -/
theorem c9_check_order_counterexample :
    (run_due_soon_notifications (sampleCfg (fun _ => true)) tableC9).skippedAlready
      = 1 := by
  decide

/-- C9 amended.  The per-row checks run in the order status, then empty
due-date, then already-notified marker, then date parse: every open row with
a non-empty `due_date` (parsable or not) and a non-empty marker is counted
as skipped-already-notified, and processing it changes nothing else. -/
theorem c9_check_order_amended (cfg : NotifierConfig) (col j : Nat) (row : Rec)
    (st : RunState)
    (h1 : pyStrip (recGet row "status") = "OPEN")
    (h2 : pyStrip (recGet row "due_date") ≠ "")
    (h3 : pyStrip (recGet row "notified_7d_at") ≠ "") :
    notifyLoop cfg col [(j, row)] st
      = .ok { st with skipped_already := st.skipped_already + 1 } := by
  rw [notifyLoop_cons_eq, (classify_already_iff cfg row).mpr ⟨h1, h2, h3⟩]
  rfl

theorem c9_check_order_amended_witness :
    notifyLoop (sampleCfg (fun _ => true)) 11
      [(2, mkRec fullHeader (sampleRow "a" "Elia" "notadate" "OPEN" "x"))]
      (initState tableC9)
      = .ok { initState tableC9 with skipped_already := 1 } :=
  c9_check_order_amended (sampleCfg (fun _ => true)) 11 2
    (mkRec fullHeader (sampleRow "a" "Elia" "notadate" "OPEN" "x"))
    (initState tableC9) (by decide) (by decide) (by decide)

/-- C10.  Rows skipped for a non-`OPEN` status, an empty `due_date`, or an
unparsable `due_date` hit a bare `continue` and increment none of the four
returned counters; consequently on some tables
`sent + skipped_no_chatid + skipped_already + skipped_not_due` is strictly
below the number of data rows processed (here `0 < 3`). -/
theorem c10_counters_incomplete :
    (∀ (cfg : NotifierConfig) (col j : Nat) (row : Rec) (st : RunState),
      (pyStrip (recGet row "status") ≠ "OPEN" ∨
        (pyStrip (recGet row "status") = "OPEN" ∧
          pyStrip (recGet row "due_date") = "") ∨
        (pyStrip (recGet row "status") = "OPEN" ∧
          pyStrip (recGet row "due_date") ≠ "" ∧
          pyStrip (recGet row "notified_7d_at") = "" ∧
          parseDate (pyStrip (recGet row "due_date")) = none)) →
      notifyLoop cfg col [(j, row)] st = .ok st) ∧
    (run_due_soon_notifications (sampleCfg (fun _ => true)) tableC10).countersSum
      < (get_all_records tableC10).length := by
  constructor
  · rintro cfg col j row st (h | ⟨h1, h2⟩ | ⟨h1, h2, h3, h4⟩)
    · rw [notifyLoop_cons_eq, classify_notOpen_of cfg row h]
      rfl
    · rw [notifyLoop_cons_eq, classify_noDue_of cfg row h1 h2]
      rfl
    · rw [notifyLoop_cons_eq, classify_unparsable_of cfg row h1 h2 h3 h4]
      rfl
  · decide

theorem c10_counters_incomplete_witness :
    notifyLoop (sampleCfg (fun _ => true)) 11
      [(2, mkRec fullHeader (sampleRow "a" "Elia" "2026-10-13" "PAID" ""))]
      (initState tableC10) = .ok (initState tableC10) :=
  c10_counters_incomplete.1 (sampleCfg (fun _ => true)) 11 2
    (mkRec fullHeader (sampleRow "a" "Elia" "2026-10-13" "PAID" ""))
    (initState tableC10) (Or.inl (by decide))

/-- C4.  A failed dispatch raises out of `run_due_soon_notifications`
(modelled by the `.aborted` result carrying the raising sheet row `k`): the
raising row was never added to the send log, and its physical row — its
`notified_7d_at` cell included — is byte-for-byte the row of the input
worksheet, because the marker write on line 218 sits after the send on line
215.  (`getRow st.tbl k = getRow tbl k` compares against the pre-run table:
`ensure_column_exists` touches only the header row.) -/
theorem c4_send_failure_not_marked (cfg : NotifierConfig) (tbl : Table)
    (st : RunState) (k : Nat)
    (h : run_due_soon_notifications cfg tbl = .aborted st k) :
    2 ≤ k ∧ k ∉ st.sends ∧ getRow st.tbl k = getRow tbl k := by
  unfold run_due_soon_notifications at h
  by_cases h1 : cfg.token = ""
  · rw [if_pos h1] at h; cases h
  rw [if_neg h1] at h
  by_cases h2 : cfg.chat_ids = []
  · rw [if_pos h2] at h; cases h
  rw [if_neg h2] at h
  cases hi : idxOf? (sheet_header (ensure_column_exists tbl "notified_7d_at"))
      "notified_7d_at" with
  | none =>
    rw [hi] at h
    replace h : RunResult.err "Non riesco a creare/vedere la colonna notified_7d_at."
        (ensure_column_exists tbl "notified_7d_at") = .aborted st k := h
    cases h
  | some i =>
    rw [hi] at h
    replace h : (match run_core cfg (i + 1)
        (get_all_records (ensure_column_exists tbl "notified_7d_at"))
        (ensure_column_exists tbl "notified_7d_at") with
      | Except.ok st => RunResult.ok st
      | Except.error (st, k) => RunResult.aborted st k) = .aborted st k := h
    cases hr : run_core cfg (i + 1)
        (get_all_records (ensure_column_exists tbl "notified_7d_at"))
        (ensure_column_exists tbl "notified_7d_at") with
    | ok st' =>
      rw [hr] at h
      replace h : RunResult.ok st' = .aborted st k := h
      cases h
    | error e =>
      obtain ⟨st', k'⟩ := e
      rw [hr] at h
      replace h : RunResult.aborted st' k' = .aborted st k := h
      cases h
      obtain ⟨pre, rowk, post, hdec, hcl, hok, ht, hn, hs⟩ :=
        notifyLoop_err_spec cfg (i + 1) _ _ st k hr
      have hkmem : (k, rowk) ∈ pyEnum 2
          (get_all_records (ensure_column_exists tbl "notified_7d_at")) := by
        rw [hdec]
        exact List.mem_append_right _ (by simp)
      obtain ⟨hk2, hklen, _⟩ :=
        (mem_pairs_iff (ensure_column_exists tbl "notified_7d_at") k rowk).mp hkmem
      have hpreS : ∀ j ∈ sendIdxs cfg pre, 2 ≤ j ∧ j < k := by
        intro j hj
        obtain ⟨row', hmem', _⟩ := (mem_sendIdxs cfg pre j).mp hj
        have hpw := pyEnum_fst_pairwise 2
          (get_all_records (ensure_column_exists tbl "notified_7d_at"))
        rw [hdec, List.pairwise_append] at hpw
        have hjk : j < k := hpw.2.2 (j, row') hmem' (k, rowk) (by simp)
        have hmemp : (j, row') ∈ pyEnum 2
            (get_all_records (ensure_column_exists tbl "notified_7d_at")) := by
          rw [hdec]
          exact List.mem_append_left _ hmem'
        exact ⟨((mem_pairs_iff _ j row').mp hmemp).1, hjk⟩
      have hknotmem : k ∉ sendIdxs cfg pre := by
        intro hmem
        have := (hpreS k hmem).2
        omega
      refine ⟨hk2, ?_, ?_⟩
      · rw [hs]
        intro hmem
        replace hmem : k ∈ sendIdxs cfg pre := by simpa [initState] using hmem
        exact hknotmem hmem
      · rw [ht]
        have e1 : getRow (applyMarks (i + 1) cfg.nowIso
            (initState (ensure_column_exists tbl "notified_7d_at")).tbl
            (sendIdxs cfg pre)) k
            = getRow (ensure_column_exists tbl "notified_7d_at") k :=
          getRow_applyMarks_ne (i + 1) cfg.nowIso _ _ k
            (fun j hj => (hpreS j hj).1) hk2 hknotmem
        rw [e1]
        exact getRow_ensure tbl _ k hk2

theorem c4_send_failure_not_marked_witness :
    2 ≤ 2 ∧ 2 ∉ (initState tableC4).sends ∧
    getRow (initState tableC4).tbl 2 = getRow tableC4 2 :=
  c4_send_failure_not_marked (sampleCfg (fun _ => false)) tableC4
    (initState tableC4) 2 (by decide)

/-- C3.  With a channel that delivers, a run sends a reminder for sheet row
`j` if and only if the row's status strips to `OPEN`, its `due_date` is
non-empty and parses, its `notified_7d_at` marker strips to empty, the days
left lie in `[0, days_threshold]`, and the debtor maps to a truthy chat id;
and every qualifying row is sent exactly once, with its marker set to the
non-empty run timestamp.  In particular an overdue row (negative days left)
or a row with no `due_date` is never sent, whatever its status or the
threshold. -/
theorem c3_selection_predicate (cfg : NotifierConfig) (tbl : Table)
    (hall : ∀ n, cfg.sendOk n = true)
    (htok : cfg.token ≠ "") (hcids : cfg.chat_ids ≠ [])
    (hmem : "notified_7d_at" ∈ sheet_header tbl)
    (hnow : pyStrip cfg.nowIso ≠ "") :
    ∃ st, run_due_soon_notifications cfg tbl = .ok st ∧
      (∀ j, j ∈ st.sends ↔
        (2 ≤ j ∧ j ≤ tbl.length ∧
          pyStrip (recGetAt tbl j "status") = "OPEN" ∧
          pyStrip (recGetAt tbl j "due_date") ≠ "" ∧
          pyStrip (recGetAt tbl j "notified_7d_at") = "" ∧
          ∃ d, parseDate (pyStrip (recGetAt tbl j "due_date")) = some d ∧
            0 ≤ toOrdinal d - toOrdinal cfg.today ∧
            toOrdinal d - toOrdinal cfg.today ≤ cfg.days_threshold ∧
            ∃ cid, cfg.chat_ids.lookup (pyStrip (recGetAt tbl j "debtor"))
                = some cid ∧ cid ≠ 0)) ∧
      (∀ j, j ∈ st.sends → st.sends.count j = 1 ∧
        recGetAt st.tbl j "notified_7d_at" = cfg.nowIso ∧
        pyStrip (recGetAt st.tbl j "notified_7d_at") ≠ "") := by
  have hens : ensure_column_exists tbl "notified_7d_at" = tbl :=
    ensure_eq_of_mem tbl _ hmem
  obtain ⟨i, hi⟩ := idxOf?_some_of_mem _ _ hmem
  obtain ⟨st, hst⟩ := notifyLoop_ok_total cfg (i + 1)
    (pyEnum 2 (get_all_records tbl)) (initState tbl) hall
  obtain ⟨e1, e2, e3, e4, e5, e6⟩ := notifyLoop_ok_spec cfg (i + 1) _ _ st hst
  have hsends : st.sends = sendIdxs cfg (pyEnum 2 (get_all_records tbl)) := by
    rw [e6]
    simp [initState]
  have hS2 : ∀ j ∈ sendIdxs cfg (pyEnum 2 (get_all_records tbl)), 2 ≤ j := by
    intro j hj
    obtain ⟨row, hmemp, _⟩ := (mem_sendIdxs cfg _ j).mp hj
    exact ((mem_pairs_iff tbl j row).mp hmemp).1
  have hhd : idxOf? (sheet_header tbl) "notified_7d_at" = some (i + 1 - 1) := by
    rw [show i + 1 - 1 = i by omega]
    exact hi
  refine ⟨st, ?_, ?_, ?_⟩
  · unfold run_due_soon_notifications
    rw [if_neg htok, if_neg hcids, hens, hi]
    show (match run_core cfg (i + 1) (get_all_records tbl) tbl with
      | Except.ok st => RunResult.ok st
      | Except.error (st, k) => RunResult.aborted st k) = RunResult.ok st
    rw [show run_core cfg (i + 1) (get_all_records tbl) tbl = Except.ok st from hst]
  · intro j
    rw [hsends, mem_sendIdxs]
    constructor
    · rintro ⟨row, hmemp, hcl⟩
      obtain ⟨hj2, hjlen, hrow⟩ := (mem_pairs_iff tbl j row).mp hmemp
      subst hrow
      obtain ⟨hs1, hs2, hs3, d, hp, hw1, hw2, cid, hlk, hcid⟩ :=
        (classify_send_iff cfg _).mp hcl
      exact ⟨hj2, hjlen, hs1, hs2, hs3, d, hp, hw1, hw2, cid, hlk, hcid⟩
    · rintro ⟨hj2, hjlen, hs1, hs2, hs3, d, hp, hw1, hw2, cid, hlk, hcid⟩
      refine ⟨mkRec (sheet_header tbl) (getRow tbl j),
        (mem_pairs_iff tbl j _).mpr ⟨hj2, hjlen, rfl⟩, ?_⟩
      exact (classify_send_iff cfg _).mpr
        ⟨hs1, hs2, hs3, d, hp, hw1, hw2, cid, hlk, hcid⟩
  · intro j hj
    have hmark : recGetAt st.tbl j "notified_7d_at" = cfg.nowIso := by
      rw [e1]
      rw [recGetAt_applyMarks (i + 1) cfg.nowIso (initState tbl).tbl
        (sendIdxs cfg (pyEnum 2 (get_all_records tbl))) (by omega) hS2 hhd
        j "notified_7d_at"]
      rw [if_pos ⟨by rw [← hsends]; exact hj, rfl⟩]
    have hnodup : st.sends.Nodup := by
      rw [hsends]
      exact (sendIdxs_pairwise cfg 2 _).imp (fun hlt => Nat.ne_of_lt hlt)
    refine ⟨List.count_eq_one_of_mem hnodup hj, hmark, ?_⟩
    rw [hmark]
    exact hnow

theorem c3_selection_predicate_witness :
    ∃ st, run_due_soon_notifications (sampleCfg (fun _ => true)) tableC3 = .ok st ∧
      (∀ j, j ∈ st.sends ↔
        (2 ≤ j ∧ j ≤ tableC3.length ∧
          pyStrip (recGetAt tableC3 j "status") = "OPEN" ∧
          pyStrip (recGetAt tableC3 j "due_date") ≠ "" ∧
          pyStrip (recGetAt tableC3 j "notified_7d_at") = "" ∧
          ∃ d, parseDate (pyStrip (recGetAt tableC3 j "due_date")) = some d ∧
            0 ≤ toOrdinal d - toOrdinal (sampleCfg (fun _ => true)).today ∧
            toOrdinal d - toOrdinal (sampleCfg (fun _ => true)).today
              ≤ (sampleCfg (fun _ => true)).days_threshold ∧
            ∃ cid, (sampleCfg (fun _ => true)).chat_ids.lookup
                (pyStrip (recGetAt tableC3 j "debtor")) = some cid ∧ cid ≠ 0)) ∧
      (∀ j, j ∈ st.sends → st.sends.count j = 1 ∧
        recGetAt st.tbl j "notified_7d_at" = (sampleCfg (fun _ => true)).nowIso ∧
        pyStrip (recGetAt st.tbl j "notified_7d_at") ≠ "") :=
  c3_selection_predicate (sampleCfg (fun _ => true)) tableC3 (fun _ => rfl)
    (by decide) (by decide) (by decide) (by decide)

/-- C7.  Settling an obligation found by id writes `status = PAID` and a
non-empty `paid_at` with one batched two-cell update touching only that row
(`update_cells_in_row` issues a single `update_cells` call), and afterwards
no sequence of application operations — settles, deletes, form submissions
with fresh ids, notifier runs — ever shows a row holding that id as anything
but `PAID`: a subsequent `readAll` never again shows the obligation as
`OPEN`. -/
theorem c7_settle_transition (tbl : Table) (txn_id now_iso : String) (r : Nat)
    (hfind : find_row_index_by_id tbl txn_id = some r)
    (hgood : GoodId txn_id)
    (hs : "status" ∈ sheet_header tbl) (hp : "paid_at" ∈ sheet_header tbl)
    (hnow : now_iso ≠ "")
    (huniq : ∀ j, recGetAt tbl j "id" = txn_id → j = r) :
    recGetAt (settleById tbl txn_id now_iso) r "status" = "PAID" ∧
    recGetAt (settleById tbl txn_id now_iso) r "paid_at" = now_iso ∧
    recGetAt (settleById tbl txn_id now_iso) r "paid_at" ≠ "" ∧
    (∀ m, m ≠ r - 1 → (settleById tbl txn_id now_iso).get? m = tbl.get? m) ∧
    (∀ ops, (∀ op ∈ ops, OpOK txn_id op) →
      ∀ j, recGetAt (applyOps (settleById tbl txn_id now_iso) ops) j "id" = txn_id →
        recGetAt (applyOps (settleById tbl txn_id now_iso) ops) j "status"
          = "PAID") := by
  have hr2 : 2 ≤ r := find_row_ge_two tbl txn_id r hgood.2 hfind
  have hrlen : r ≤ tbl.length := (find_row_spec tbl txn_id r hfind).2.1
  rw [settleById_some tbl txn_id now_iso r hfind]
  refine ⟨settle_status_mem tbl now_iso r hr2 hs,
    settle_paid_mem tbl now_iso r hr2 hp, ?_, ?_, ?_⟩
  · rw [settle_paid_mem tbl now_iso r hr2 hp]
    exact hnow
  · intro m hm
    unfold update_cells_in_row
    exact get?_ucrAux_ne (sheet_header tbl) r _ tbl m hm (by omega) hrlen
  · intro ops hops
    refine paidInv_applyOps txn_id _ ops hgood hops ?_
    intro j hid
    have hid' : recGetAt tbl j "id" = txn_id := by
      rw [← settle_other_field tbl now_iso r j "id" hr2 (by decide) (by decide)]
      exact hid
    have hjr := huniq j hid'
    subst hjr
    exact settle_status_mem tbl now_iso j hr2 hs

theorem c7_settle_transition_witness :
    recGetAt (settleById tableC7 "a" "2026-10-12T11:00:00") 2 "status" = "PAID" ∧
    recGetAt (settleById tableC7 "a" "2026-10-12T11:00:00") 2 "paid_at"
      = "2026-10-12T11:00:00" ∧
    recGetAt (settleById tableC7 "a" "2026-10-12T11:00:00") 2 "paid_at" ≠ "" ∧
    (∀ m, m ≠ 2 - 1 →
      (settleById tableC7 "a" "2026-10-12T11:00:00").get? m = tableC7.get? m) ∧
    (∀ ops, (∀ op ∈ ops, OpOK "a" op) →
      ∀ j, recGetAt (applyOps (settleById tableC7 "a" "2026-10-12T11:00:00") ops)
          j "id" = "a" →
        recGetAt (applyOps (settleById tableC7 "a" "2026-10-12T11:00:00") ops)
          j "status" = "PAID") := by
  have huniqW : ∀ j, recGetAt tableC7 j "id" = "a" → j = 2 := by
    intro j hj
    match j with
    | 0 => exact absurd hj (by decide)
    | 1 => exact absurd hj (by decide)
    | 2 => rfl
    | m + 3 =>
      rw [recGetAt_phantom tableC7 (m + 3) "id"
        (by have e : tableC7.length = 2 := rfl; omega)] at hj
      exact absurd hj (by decide)
  exact c7_settle_transition tableC7 "a" "2026-10-12T11:00:00" 2 (by decide)
    ⟨by decide, by decide⟩ (by decide) (by decide) (by decide) huniqW

/-- C8 counterexample.  The claim says every mutating write — the notifier's
marker write included — re-resolves the target row by id immediately before
writing.  The notifier does not: it writes `ws.update_cell(sheet_row_index,
…)` with the row position from its one initial `enumerate(rows, start=2)`.
Concretely: the snapshot of `tableC8` puts obligation `b` at sheet row 3; an
external client then deletes row 2, so on the live sheet
`find_row_index_by_id` now resolves `b` to row 2; the run still sends `b`'s
reminder and writes its marker at cached row 3, leaving `b`'s actual row
unmarked (and padding a phantom row 3).  `3 = 2` being false, the claimed
fresh re-resolution does not happen. -/
theorem c8_stale_position_counterexample :
    run_core (sampleCfg (fun _ => true)) 11 (get_all_records tableC8) liveC8
      = .ok stC8 ∧
    stC8.sends = [3] ∧
    find_row_index_by_id liveC8 "b" = some 2 ∧
    recGetAt stC8.tbl 2 "notified_7d_at" = "" ∧
    recGetAt stC8.tbl 2 "id" = "b" ∧
    ¬ (3 : Nat) = 2 := by
  refine ⟨by rfl, by decide, by decide, by decide, by decide, by decide⟩

/-- C8 amended.  The settle and delete buttons do re-resolve the target row
by identifier immediately before writing: each calls `find_row_index_by_id`
at click time, a miss is a no-op, and a hit writes exactly the row currently
holding the id.  The notifier's marker write instead uses the sheet row
position captured by its single initial snapshot enumeration, which can be
stale by write time if the sheet was mutated mid-run (concrete scenario in
the last conjunct: the marker for `b` lands on row 3 while `b` lives at row
2 of the live sheet). -/
theorem c8_fresh_resolution_amended :
    (∀ (t : Table) (id now : String), find_row_index_by_id t id = none →
      settleById t id now = t ∧ deleteById t id = t) ∧
    (∀ (t : Table) (id now : String) (r : Nat), id ≠ "id" →
      find_row_index_by_id t id = some r →
      (∃ i, idxOf? (sheet_header t) "id" = some i ∧ (getRow t r).getD i "" = id) ∧
      (∀ m, m ≠ r - 1 → (settleById t id now).get? m = t.get? m) ∧
      deleteById t id = delete_row_at t r) ∧
    (run_core (sampleCfg (fun _ => true)) 11 (get_all_records tableC8) liveC8
        = .ok stC8 ∧
      stC8.sends = [3] ∧ find_row_index_by_id liveC8 "b" = some 2 ∧
      recGetAt stC8.tbl 2 "notified_7d_at" = "") := by
  refine ⟨?_, ?_, by rfl, by decide, by decide, by decide⟩
  · intro t id now hfind
    exact ⟨settleById_none t id now hfind, deleteById_none t id hfind⟩
  · intro t id now r hid hfind
    have hr2 : 2 ≤ r := find_row_ge_two t id r hid hfind
    have hrlen : r ≤ t.length := (find_row_spec t id r hfind).2.1
    refine ⟨(find_row_spec t id r hfind).2.2, ?_, deleteById_some t id r hfind⟩
    intro m hm
    rw [settleById_some t id now r hfind]
    unfold update_cells_in_row
    exact get?_ucrAux_ne (sheet_header t) r _ t m hm (by omega) hrlen

theorem c8_fresh_resolution_amended_witness :
    (settleById liveC8 "zz" "x" = liveC8 ∧ deleteById liveC8 "zz" = liveC8) ∧
    ((∃ i, idxOf? (sheet_header liveC8) "id" = some i ∧
        (getRow liveC8 2).getD i "" = "b") ∧
      (∀ m, m ≠ 2 - 1 → (settleById liveC8 "b" "x").get? m = liveC8.get? m) ∧
      deleteById liveC8 "b" = delete_row_at liveC8 2) :=
  ⟨c8_fresh_resolution_amended.1 liveC8 "zz" "x" (by decide),
    c8_fresh_resolution_amended.2.1 liveC8 "b" "x" 2 (by decide) (by decide)⟩

/-- C1.  At-most-once notification per obligation lifetime.  First conjunct:
a row whose `notified_7d_at` marker strips non-empty is never in any run's
send log, whatever the table.  Second conjunct: re-running the notifier right
after a completed run, with no data change, completes with zero sends (so in
particular none for any row the first run sent), and every row the first run
sent or had already skipped as notified is now counted as
skipped-already-notified: `skipped_already₂ = skipped_already₁ + sent₁`,
while the other skip counters repeat unchanged. -/
theorem c1_at_most_once_notification (cfg : NotifierConfig) (tbl : Table)
    (st1 : RunState) (k : Nat)
    (hrun : run_due_soon_notifications cfg tbl = .ok st1)
    (hk : k ∈ st1.sends)
    (hnow : pyStrip cfg.nowIso ≠ "") :
    (∀ (t' : Table) (k' : Nat),
      pyStrip (recGetAt t' k' "notified_7d_at") ≠ "" →
      k' ∉ (run_due_soon_notifications cfg t').sendsList) ∧
    ∃ st2, run_due_soon_notifications cfg st1.tbl = .ok st2 ∧
      st2.sends = [] ∧ st2.sent = 0 ∧ k ∉ st2.sends ∧
      st2.skipped_already = st1.skipped_already + st1.sent ∧
      st2.skipped_no_chatid = st1.skipped_no_chatid ∧
      st2.skipped_not_due = st1.skipped_not_due := by
  refine ⟨fun t' k' h => marker_nonempty_not_sent cfg t' k' h, ?_⟩
  unfold run_due_soon_notifications at hrun
  by_cases htok : cfg.token = ""
  · rw [if_pos htok] at hrun
    replace hrun : RunResult.err "Manca TELEGRAM_BOT_TOKEN nei secrets." tbl
        = .ok st1 := hrun
    cases hrun
  rw [if_neg htok] at hrun
  by_cases hcids : cfg.chat_ids = []
  · rw [if_pos hcids] at hrun
    replace hrun : RunResult.err
        "Manca TELEGRAM_CHAT_IDS_JSON nei secrets (o e vuoto)." tbl = .ok st1 := hrun
    cases hrun
  rw [if_neg hcids] at hrun
  cases hi : idxOf? (sheet_header (ensure_column_exists tbl "notified_7d_at"))
      "notified_7d_at" with
  | none =>
    rw [hi] at hrun
    replace hrun : RunResult.err
        "Non riesco a creare/vedere la colonna notified_7d_at."
        (ensure_column_exists tbl "notified_7d_at") = .ok st1 := hrun
    cases hrun
  | some i =>
    rw [hi] at hrun
    replace hrun : (match run_core cfg (i + 1)
        (get_all_records (ensure_column_exists tbl "notified_7d_at"))
        (ensure_column_exists tbl "notified_7d_at") with
      | Except.ok st => RunResult.ok st
      | Except.error (st, k) => RunResult.aborted st k) = .ok st1 := hrun
    cases hcore : run_core cfg (i + 1)
        (get_all_records (ensure_column_exists tbl "notified_7d_at"))
        (ensure_column_exists tbl "notified_7d_at") with
    | error e =>
      obtain ⟨st', k'⟩ := e
      rw [hcore] at hrun
      replace hrun : RunResult.aborted st' k' = .ok st1 := hrun
      cases hrun
    | ok st' =>
      rw [hcore] at hrun
      replace hrun : RunResult.ok st' = .ok st1 := hrun
      cases hrun
      set tbl1 := ensure_column_exists tbl "notified_7d_at" with htbl1
      obtain ⟨e1, e2, e3, e4, e5, e6⟩ := notifyLoop_ok_spec cfg (i + 1) _ _ st1 hcore
      set S := sendIdxs cfg (pyEnum 2 (get_all_records tbl1)) with hSdef
      have hS2 : ∀ j ∈ S, 2 ≤ j := by
        intro j hj
        obtain ⟨row, hmemp, _⟩ := (mem_sendIdxs cfg _ j).mp hj
        exact ((mem_pairs_iff tbl1 j row).mp hmemp).1
      have hSlen : ∀ j ∈ S, j ≤ tbl1.length := by
        intro j hj
        obtain ⟨row, hmemp, _⟩ := (mem_sendIdxs cfg _ j).mp hj
        exact ((mem_pairs_iff tbl1 j row).mp hmemp).2.1
      have hhd : idxOf? (sheet_header tbl1) "notified_7d_at" = some (i + 1 - 1) := by
        rw [show i + 1 - 1 = i by omega]
        exact hi
      have hheader2 : sheet_header st1.tbl = sheet_header tbl1 := by
        rw [e1]
        exact sheet_header_applyMarks (i + 1) cfg.nowIso _ S hS2
      have hlen2 : st1.tbl.length = tbl1.length := by
        rw [e1]
        exact applyMarks_length (i + 1) cfg.nowIso _ S hSlen
      have hrec : ∀ k' key, recGetAt st1.tbl k' key
          = if k' ∈ S ∧ key = "notified_7d_at" then cfg.nowIso
            else recGetAt tbl1 k' key := by
        intro k' key
        rw [e1]
        exact recGetAt_applyMarks (i + 1) cfg.nowIso _ S (by omega) hS2 hhd k' key
      have hrows_len : (get_all_records st1.tbl).length
          = (get_all_records tbl1).length := by
        rw [get_all_records_length, get_all_records_length, hlen2]
      have hrel : ∀ j r1 r2, (get_all_records tbl1).get? j = some r1 →
          (get_all_records st1.tbl).get? j = some r2 →
          classifyRow cfg r2 = reclass (classifyRow cfg r1) := by
        intro j r1 r2 hg1 hg2
        have hm1 : (j + 2, r1) ∈ pyEnum 2 (get_all_records tbl1) := by
          rw [pyEnum_mem]
          exact ⟨by omega, by rw [show j + 2 - 2 = j by omega]; exact hg1⟩
        have hm2 : (j + 2, r2) ∈ pyEnum 2 (get_all_records st1.tbl) := by
          rw [pyEnum_mem]
          exact ⟨by omega, by rw [show j + 2 - 2 = j by omega]; exact hg2⟩
        obtain ⟨_, hlen1, hr1⟩ := (mem_pairs_iff tbl1 (j + 2) r1).mp hm1
        obtain ⟨_, hlen2', hr2⟩ := (mem_pairs_iff st1.tbl (j + 2) r2).mp hm2
        have hget2 : ∀ key, recGet r2 key = recGetAt st1.tbl (j + 2) key := by
          intro key
          rw [hr2]
          rfl
        have hget1 : ∀ key, recGet r1 key = recGetAt tbl1 (j + 2) key := by
          intro key
          rw [hr1]
          rfl
        by_cases hjS : (j + 2) ∈ S
        · have hcl1 : classifyRow cfg r1 = .send := by
            obtain ⟨row', hmem', hcl'⟩ := (mem_sendIdxs cfg _ (j + 2)).mp hjS
            obtain ⟨_, _, hrow'⟩ := (mem_pairs_iff tbl1 (j + 2) row').mp hmem'
            rw [hr1, ← hrow']
            exact hcl'
          obtain ⟨hs1, hd1, _, _⟩ := (classify_send_iff cfg r1).mp hcl1
          rw [hcl1]
          show classifyRow cfg r2 = Outcome.already
          rw [hget1] at hs1 hd1
          refine (classify_already_iff cfg r2).mpr ⟨?_, ?_, ?_⟩
          · rw [hget2, hrec (j + 2) "status", if_neg (by simp)]
            exact hs1
          · rw [hget2, hrec (j + 2) "due_date", if_neg (by simp)]
            exact hd1
          · rw [hget2, hrec (j + 2) "notified_7d_at", if_pos ⟨hjS, rfl⟩]
            exact hnow
        · have hclne : classifyRow cfg r1 ≠ .send := by
            intro hcl
            apply hjS
            rw [hSdef, mem_sendIdxs]
            exact ⟨r1, hm1, hcl⟩
          have heq : classifyRow cfg r2 = classifyRow cfg r1 := by
            refine classify_congr cfg r2 r1 ?_
            intro key
            rw [hget2, hget1, hrec (j + 2) key,
              if_neg (by rintro ⟨hS', _⟩; exact hjS hS')]
          rw [heq]
          cases hcl : classifyRow cfg r1 with
          | send => exact absurd hcl hclne
          | notOpen => rfl
          | noDue => rfl
          | unparsable => rfl
          | already => rfl
          | notDue => rfl
          | noChat => rfl
      have hnosend2 : ∀ p ∈ pyEnum 2 (get_all_records st1.tbl),
          classifyRow cfg p.2 ≠ .send := by
        rintro ⟨j, row2⟩ hp
        obtain ⟨hj2, hget⟩ := (pyEnum_mem 2 _ j row2).mp hp
        exact no_send_pointwise cfg _ _ hrows_len hrel row2 (List.get?_mem hget)
      have hsend2_nil : sendIdxs cfg (pyEnum 2 (get_all_records st1.tbl)) = [] :=
        sendIdxs_eq_nil_of_no_send _ _ hnosend2
      have hloop2 : ∃ st2, notifyLoop cfg (i + 1)
          (pyEnum 2 (get_all_records st1.tbl)) (initState st1.tbl) = .ok st2 := by
        cases hl : notifyLoop cfg (i + 1)
            (pyEnum 2 (get_all_records st1.tbl)) (initState st1.tbl) with
        | ok st2 => exact ⟨st2, rfl⟩
        | error e =>
          obtain ⟨st2, k2⟩ := e
          obtain ⟨pre, rowk, post, hdec, hcl, _, _, _, _⟩ :=
            notifyLoop_err_spec cfg (i + 1) _ _ st2 k2 hl
          exfalso
          refine hnosend2 (k2, rowk) ?_ hcl
          rw [hdec]
          exact List.mem_append_right _ (by simp)
      obtain ⟨st2, hl2⟩ := hloop2
      obtain ⟨f1, f2, f3, f4, f5, f6⟩ := notifyLoop_ok_spec cfg (i + 1) _ _ st2 hl2
      have hmem2 : "notified_7d_at" ∈ sheet_header st1.tbl := by
        rw [hheader2]
        exact mem_of_idxOf?_some _ _ _ hhd
      have hens2 : ensure_column_exists st1.tbl "notified_7d_at" = st1.tbl :=
        ensure_eq_of_mem _ _ hmem2
      have hsendsnil : st2.sends = [] := by
        rw [f6, hsend2_nil]
        simp [initState]
      refine ⟨st2, ?_, hsendsnil, ?_, ?_, ?_, ?_, ?_⟩
      · unfold run_due_soon_notifications
        rw [if_neg htok, if_neg hcids, hens2, hheader2, hhd]
        show (match run_core cfg (i + 1 - 1 + 1) (get_all_records st1.tbl) st1.tbl with
          | Except.ok st => RunResult.ok st
          | Except.error (st, k) => RunResult.aborted st k) = RunResult.ok st2
        rw [show run_core cfg (i + 1 - 1 + 1) (get_all_records st1.tbl) st1.tbl
          = Except.ok st2 from by rw [show i + 1 - 1 + 1 = i + 1 by omega]; exact hl2]
      · rw [f2, hsend2_nil]
        simp [initState]
      · rw [hsendsnil]
        simp
      · rw [f4, e4, e2]
        simp only [initState]
        rw [outCount_pyEnum, countP_pointwise cfg _ _ hrows_len hrel,
          countP_reclass_already, outCount_pyEnum, hSdef, sendIdxs_length,
          outCount_pyEnum]
        omega
      · rw [f3, e3]
        simp only [initState]
        rw [outCount_pyEnum, countP_pointwise cfg _ _ hrows_len hrel,
          countP_reclass_other cfg _ .noChat (by decide) (by decide),
          outCount_pyEnum]
      · rw [f5, e5]
        simp only [initState]
        rw [outCount_pyEnum, countP_pointwise cfg _ _ hrows_len hrel,
          countP_reclass_other cfg _ .notDue (by decide) (by decide),
          outCount_pyEnum]

theorem c1_at_most_once_notification_witness :
    (∀ (t' : Table) (k' : Nat),
      pyStrip (recGetAt t' k' "notified_7d_at") ≠ "" →
      k' ∉ (run_due_soon_notifications (sampleCfg (fun _ => true)) t').sendsList) ∧
    ∃ st2, run_due_soon_notifications (sampleCfg (fun _ => true)) stC1.tbl
        = .ok st2 ∧
      st2.sends = [] ∧ st2.sent = 0 ∧ 2 ∉ st2.sends ∧
      st2.skipped_already = stC1.skipped_already + stC1.sent ∧
      st2.skipped_no_chatid = stC1.skipped_no_chatid ∧
      st2.skipped_not_due = stC1.skipped_not_due :=
  c1_at_most_once_notification (sampleCfg (fun _ => true)) tableC1 stC1 2
    (by decide) (by decide) (by decide)

end Debiti
